import Mathlib

/-!
# Multistream framing and handshake (`net/multistream.c`)

A shallow embedding of the functions of `net/multistream.c`:
`libp2p_net_multistream_send`, `libp2p_net_multistream_receive`,
`libp2p_net_multistream_connect`, `libp2p_net_multistream_negotiate`,
`libp2p_net_multistream_handle_ping` and `libp2p_net_multistream_handle_message`.

Conventions of the embedding.

* A byte (`unsigned char`) is a `Nat`; a byte string is a `List Nat`.
* The socket is explicit state (`Sock`): the bytes the peer has sent and that
  have not been read yet, the bytes written so far, and two scripts that say
  how the next calls of `socket_read` / `socket_write` behave (short counts,
  `EAGAIN`, errors).  With an empty script a call transfers as much as it was
  asked for.  A read on an exhausted input returns 0: hard end of stream.
* C `int` results are `Int`; the `int` accumulator of `send` wraps at 32 bits
  (`c_int`); `size_t` values are `Nat`, and the conversion of a negative `int`
  to `size_t` is written with an explicit `% 2 ^ 64`.
* The two loops of `receive` take fuel; `none` means the loop is still running
  when the fuel is used up.
* Two things C leaves open are kept as results of their own: a write past the
  65535-byte stack buffer (`Run.overflow`) and a branch on the local `c` that
  no read has filled (`Run.indeterminate`).
* `malloc` is assumed to succeed.  The block `receive` hands out is not
  0-terminated, so `strstr` and `strncmp` in the handshake may read on into the
  memory that follows it; that memory is the parameter `trail`, and memory past
  the end of a modelled list reads as 0.
* The descriptor returned by `socket_open4` and the result of `socket_connect4`
  are parameters of `connect`; `libp2p_net_multistream_connect_process` is the
  same function on a state that also holds the open descriptors.
* The message codec of `message.h` is a parameter (`MessageCodec`); a decoder
  handed `NULL` with size 0 sees the empty input.
-/

namespace Multistream

/-! ## Varint codec (`varint.h`) -/

/-- Failures of the varint codec, as the specification names them. -/
inductive VarintError where
  | MalformedVarint
  | VarintOverflow
  | BufferTooSmall
  deriving DecidableEq, Repr

/-- Modelled from the spec: the byte sequence of a varint (`varint.h` is not
among the sources).  Groups of 7 bits, least-significant group first; every
byte except the last has its high bit set. -/
def varint_bytes (n : Nat) : List Nat :=
  if n < 128 then [n] else (n % 128 + 128) :: varint_bytes (n / 128)
termination_by n
decreasing_by omega

/-- Modelled from the spec: `varint_encode` of `varint.h`, which is not among
the sources.  Encoding into a buffer of capacity `cap` fails with
`BufferTooSmall` when the encoding does not fit. -/
def varint_encode (n : Nat) (cap : Nat) : Except VarintError (List Nat) :=
  if (varint_bytes n).length ≤ cap then .ok (varint_bytes n) else .error .BufferTooSmall

/-- Modelled from the spec: the scan of `varint_decode` before the width
check.  Reads bytes until one without the continuation bit and returns the
value and the number of bytes consumed; fails with `MalformedVarint` when the
input ends before a terminating byte. -/
def varint_scan : List Nat → Except VarintError (Nat × Nat)
  | [] => .error .MalformedVarint
  | b :: rest =>
    if b < 128 then .ok (b, 1)
    else
      match varint_scan rest with
      | .ok (v, k) => .ok (b % 128 + 128 * v, k + 1)
      | .error e => .error e

/-- Modelled from the spec: `varint_decode` of `varint.h`, which is not among
the sources.  As `varint_scan`, and fails with `VarintOverflow` when the value
does not fit the supported width of 64 bits. -/
def varint_decode (bytes : List Nat) : Except VarintError (Nat × Nat) :=
  match varint_scan bytes with
  | .ok (v, k) => if v < 2 ^ 64 then .ok (v, k) else .error .VarintOverflow
  | .error e => .error e

/-! ## Transport (`socket_read`, `socket_write` of `p2pnet.h`) -/

/-- How one call of `socket_read` behaves. -/
inductive ReadEvent where
  /-- The call hands over at most `k` bytes (a short read when `k` is less than asked). -/
  | deliver (k : Nat)
  /-- The call returns -1 with `errno` set to `EAGAIN` / `EWOULDBLOCK`. -/
  | again
  /-- The call returns -1 with another `errno`. -/
  | error
  deriving DecidableEq, Repr

/-- How one call of `socket_write` behaves. -/
inductive WriteEvent where
  /-- The call writes at most `k` bytes and returns the count. -/
  | short (k : Nat)
  /-- The call writes nothing and returns the negative value `-(e + 1)`. -/
  | error (e : Nat)
  deriving DecidableEq, Repr

/-- State of a connected socket. -/
structure Sock where
  /-- Bytes sent by the peer and not read yet; when empty the peer has closed. -/
  inbox : List Nat
  /-- Script for the coming calls of `socket_read`. -/
  reads : List ReadEvent
  /-- Bytes written to the transport so far. -/
  outbox : List Nat
  /-- Script for the coming calls of `socket_write`. -/
  writes : List WriteEvent
  deriving DecidableEq, Repr

/-- What a call of `socket_read` returned. -/
inductive ReadResult where
  /-- A positive return value: these bytes were stored at the destination. -/
  | data (bytes : List Nat)
  /-- Return value 0. -/
  | eof
  /-- Return value -1, `errno` is `EAGAIN` / `EWOULDBLOCK`. -/
  | again
  /-- Return value -1, another `errno`. -/
  | error
  deriving DecidableEq, Repr

/-- Hand over at most `m` bytes of the input. -/
def Sock.take (s : Sock) (m : Nat) (reads : List ReadEvent) : ReadResult × Sock :=
  match s.inbox.take m with
  | [] => (.eof, { s with reads := reads })
  | b :: bs => (.data (b :: bs), { s with inbox := s.inbox.drop m, reads := reads })

/-- Modelled from the spec: `socket_read(fd, buf, len, 0)`, whose definition is
not among the sources (a plain `recv`). -/
def socket_read (s : Sock) (len : Nat) : ReadResult × Sock :=
  match s.reads with
  | [] => s.take len []
  | .deliver k :: r => s.take (min k len) r
  | .again :: r => (.again, { s with reads := r })
  | .error :: r => (.error, { s with reads := r })

/-- Modelled from the spec: `socket_write(fd, buf, len, 0)`, whose definition
is not among the sources (a plain `send`).  Returns the count and the new state. -/
def socket_write (s : Sock) (data : List Nat) : Int × Sock :=
  match s.writes with
  | [] => ((data.length : Int), { s with outbox := s.outbox ++ data })
  | .short k :: w =>
    (((data.take k).length : Int), { s with outbox := s.outbox ++ data.take k, writes := w })
  | .error e :: w => (-((e : Int) + 1), { s with writes := w })

/-! ## `libp2p_net_multistream_send` -/

/-- A value stored in a C `int` (32 bits, two's complement): the value modulo
`2 ^ 32`, taken in the range from `-2 ^ 31` to `2 ^ 31 - 1`. -/
def c_int (x : Int) : Int := (x + 2147483648) % 4294967296 - 2147483648

/-- The function `libp2p_net_multistream_send(socket_fd, data, data_length)`:
returns the `int` result and the socket state afterwards. -/
def libp2p_net_multistream_send (s : Sock) (data : List Nat) : Int × Sock :=
  if data.length > 0 then
    -- unsigned char varint[12]; size_t varint_size = 0;
    let varint : List Nat :=
      match varint_encode data.length 12 with
      | .ok v => v
      | .error _ => []
    let w1 := socket_write s varint
    -- num_bytes = socket_write(socket_fd, (char*)varint, varint_size, 0);
    let num_bytes : Int := c_int w1.1
    if num_bytes = 0 then (0, w1.2)
    else
      let w2 := socket_write w1.2 data
      -- num_bytes += socket_write(socket_fd, (char*)data, data_length, 0);
      (c_int (num_bytes + c_int w2.1), w2.2)
  else (0, s)

/-! ## `libp2p_net_multistream_receive` -/

/-- Outcome of a run: a normal return, a write past the stack buffer, or a
branch on a variable that was never filled. -/
inductive Run (α : Type) where
  | done (a : α)
  | overflow
  | indeterminate
  deriving DecidableEq, Repr

/-- The constant `size_t buffer_size = 65535;` that sizes `char buffer[buffer_size]`. -/
def buffer_size : Nat := 65535

/-- Store the bytes `d` at `&buffer[off]`. -/
def store (buffer : List Nat) (off : Nat) (d : List Nat) : List Nat :=
  buffer.take off ++ d ++ buffer.drop (off + d.length)

/-- The bytes of the C string that starts the memory `mem` (memory past the
end of the list reads as 0). -/
def cstr (mem : List Nat) : List Nat := mem.takeWhile (fun b => b ≠ 0)

/-- The function `strlen`. -/
def strlen (mem : List Nat) : Nat := (cstr mem).length

/-- The statement `num_bytes_requested = varint_decode((unsigned char*)buffer,
strlen(buffer), NULL);`.  The C call has no way to report a failure; a decode
that fails gives no length, written 0 here (on which `receive` returns 0). -/
def decoded_length (buffer : List Nat) : Nat :=
  match varint_decode (buffer.take (strlen buffer)) with
  | .ok (v, _) => v
  | .error _ => 0

/-- The first loop of `receive` (`while(1)`), started with `pos = buffer + pos`:
reads the length varint one byte at a time.  Returns `num_bytes_requested`,
the buffer and the socket. -/
def read_varint : Nat → Sock → List Nat → Nat → Option (Run (Nat × List Nat × Sock))
  | 0, _, _, _ => none
  | fuel + 1, s, buffer, pos =>
    -- bytes = socket_read(socket_fd, (char*)&c, 1, 0);   (the count is not looked at)
    match socket_read s 1 with
    | (.data d, s1) =>
      let c := d.headD 0
      -- pos[0] = c;
      if buffer_size ≤ pos then some .overflow
      else
        let buffer := store buffer pos [c]
        if c >>> 7 = 0 then
          -- pos[1] = 0;
          if buffer_size ≤ pos + 1 then some .overflow
          else
            let buffer := store buffer (pos + 1) [0]
            some (.done (decoded_length buffer, buffer, s1))
        else read_varint fuel s1 buffer (pos + 1)
    | (_, _) => some .indeterminate

/-- How the second loop of `receive` ends. -/
inductive LoopExit where
  /-- The statement `return 0;` inside the loop. -/
  | ret0 (s : Sock)
  /-- The loop condition `left > 0` is false. -/
  | finished (buffer : List Nat) (already_read : Nat) (s : Sock)
  deriving DecidableEq, Repr

/-- The second loop of `receive` (`do { ... } while (left > 0)`). -/
def read_payload : Nat → Sock → List Nat → Nat → Nat → Option (Run LoopExit)
  | 0, _, _, _, _ => none
  | fuel + 1, s, buffer, left, already_read =>
    -- bytes = socket_read(socket_fd, &buffer[already_read], left, 0);
    match socket_read s left with
    | (.data d, s1) =>
      if buffer_size < already_read + d.length then some .overflow
      else
        let buffer := store buffer already_read d
        let left := left - d.length
        let already_read := already_read + d.length
        if left > 0 then read_payload fuel s1 buffer left already_read
        else some (.done (.finished buffer already_read s1))
    | (.eof, s1) =>
      -- bytes == 0: left and already_read stay as they are
      if left > 0 then read_payload fuel s1 buffer left already_read
      else some (.done (.finished buffer already_read s1))
    | (.again, s1) =>
      -- bytes = 0; errno is EAGAIN or EWOULDBLOCK
      if left > 0 then read_payload fuel s1 buffer left already_read
      else some (.done (.finished buffer already_read s1))
    | (.error, s1) => some (.done (.ret0 s1))

/-- What `receive` leaves to its caller: the `int` result, the two output
parameters (`none` when the call did not assign them) and the socket. -/
structure Received where
  ret : Int
  results : Option (List Nat)
  results_size : Option Nat
  sock : Sock
  deriving DecidableEq, Repr

/-- The function `libp2p_net_multistream_receive(socket_fd, results, results_size)`. -/
def libp2p_net_multistream_receive (fuel : Nat) (s : Sock) : Option (Run Received) :=
  match read_varint fuel s [] 0 with
  | none => none
  | some .overflow => some .overflow
  | some .indeterminate => some .indeterminate
  | some (.done (num_bytes_requested, buffer, s1)) =>
    if num_bytes_requested ≤ 0 then
      some (.done { ret := 0, results := none, results_size := none, sock := s1 })
    else
      -- left = num_bytes_requested;
      match read_payload fuel s1 buffer num_bytes_requested 0 with
      | none => none
      | some .overflow => some .overflow
      | some .indeterminate => some .indeterminate
      | some (.done (.ret0 s2)) =>
        some (.done { ret := 0, results := none, results_size := none, sock := s2 })
      | some (.done (.finished buffer already_read s2)) =>
        if already_read ≠ num_bytes_requested then
          some (.done { ret := 0, results := none, results_size := none, sock := s2 })
        else
          -- memcpy(*results, buffer, num_bytes_requested);
          some (.done { ret := (num_bytes_requested : Int),
                        results := some (buffer.take num_bytes_requested),
                        results_size := some num_bytes_requested,
                        sock := s2 })

/-! ## Handshake: `libp2p_net_multistream_connect`, `libp2p_net_multistream_negotiate` -/

/-- The literal `"/multistream/1.0.0\n"` (19 bytes, without the terminating 0). -/
def protocolID : List Nat :=
  [47, 109, 117, 108, 116, 105, 115, 116, 114, 101, 97, 109, 47, 49, 46, 48, 46, 48, 10]

/-- The literal `"multistream"`. -/
def multistream : List Nat := [109, 117, 108, 116, 105, 115, 116, 114, 101, 97, 109]

/-- Whether `needle` starts one of the suffixes of `hay`. -/
def occurs (needle : List Nat) : List Nat → Bool
  | [] => needle.isPrefixOf []
  | h :: t => needle.isPrefixOf (h :: t) || occurs needle t

/-- The test `strstr(hay, needle) != NULL` on the C string at `hay`. -/
def strstr (hay needle : List Nat) : Bool := occurs needle (cstr hay)

/-- The function `strncmp(s1, s2, n)` on two memories. -/
def strncmp : List Nat → List Nat → Nat → Int
  | _, _, 0 => 0
  | s1, s2, n + 1 =>
    let a := s1.headD 0
    let b := s2.headD 0
    if a ≠ b then (a : Int) - (b : Int)
    else if a = 0 then 0
    else strncmp s1.tail s2.tail n

/-- The function `libp2p_net_multistream_connect(hostname, port)`.  `socket` is
what `socket_open4()` returned, `connected` what `socket_connect4` returned,
`s` the state of the socket and `trail` the memory that follows the block
`receive` allocated.  Returns `retVal` and the socket state. -/
def libp2p_net_multistream_connect (fuel : Nat) (socket : Int) (connected : Int)
    (s : Sock) (trail : List Nat) : Option (Run (Int × Sock)) :=
  if connected ≠ 0 then some (.done (-1, s))
  else
    let sent := libp2p_net_multistream_send s protocolID
    -- size_t num_bytes = (int result)
    let num_bytes : Nat := (sent.1 % (2 : Int) ^ 64).toNat
    if num_bytes ≤ 0 then some (.done (-1, sent.2))
    else
      match libp2p_net_multistream_receive fuel sent.2 with
      | none => none
      | some .overflow => some .overflow
      | some .indeterminate => some .indeterminate
      | some (.done r) =>
        if r.ret = 0 then some (.done (-1, r.sock))
        else
          match r.results_size, r.results with
          | some results_size, some results =>
            if results_size < 1 then some (.done (-1, r.sock))
            else if strstr (results ++ trail) multistream = false then some (.done (-1, r.sock))
            else some (.done (socket, r.sock))
          | _, _ => some .indeterminate

/-- The function `libp2p_net_multistream_negotiate(fd)`; `trail` is the memory
that follows the block `receive` allocated. -/
def libp2p_net_multistream_negotiate (fuel : Nat) (s : Sock) (trail : List Nat) :
    Option (Run (Int × Sock)) :=
  let sent := libp2p_net_multistream_send s protocolID
  if sent.1 = 0 then some (.done (0, sent.2))
  else
    match libp2p_net_multistream_receive fuel sent.2 with
    | none => none
    | some .overflow => some .overflow
    | some .indeterminate => some .indeterminate
    | some (.done r) =>
      -- size_t results_length = 0;
      let results_length := r.results_size.getD 0
      if results_length = 0 then some (.done (0, r.sock))
      else
        match r.results with
        | some results =>
          if strncmp (results ++ trail) (protocolID ++ [0]) protocolID.length ≠ 0 then
            some (.done (0, r.sock))
          else some (.done (1, r.sock))
        | none => some .indeterminate

/-! ## Message dispatch: `libp2p_net_multistream_handle_ping`, `libp2p_net_multistream_handle_message` -/

/-- Modelled from the spec: `struct Libp2pMessage` of `libp2p/record/message.h`,
which is not among the sources: a kind discriminant and a body that only the
codec understands. -/
structure Libp2pMessage where
  message_type : Nat
  body : List Nat
  deriving DecidableEq, Repr

/-- Modelled from the spec: the message codec of `libp2p/record/message.h`,
which is not among the sources.  `encode` stands for
`libp2p_message_protobuf_encode_size` followed by
`libp2p_message_protobuf_encode` (the bytes written, whose count ends up in
`protobuf_size`), `decode` for `libp2p_message_protobuf_decode` (`none` when it
returns 0), and `MESSAGE_TYPE_PING` for the enum value of that name. -/
structure MessageCodec where
  MESSAGE_TYPE_PING : Nat
  encode : Libp2pMessage → List Nat
  decode : List Nat → Option Libp2pMessage

/-- The function `libp2p_net_multistream_handle_ping(fd, msg)`. -/
def libp2p_net_multistream_handle_ping (codec : MessageCodec) (s : Sock)
    (msg : Libp2pMessage) : Int × Sock :=
  -- libp2p_message_protobuf_encode(msg, &protobuf[0], protobuf_size, &protobuf_size);
  let protobuf := codec.encode msg
  -- libp2p_net_multistream_send(fd, protobuf, protobuf_size);   (the result is dropped)
  let sent := libp2p_net_multistream_send s protobuf
  (1, sent.2)

/-- The function `libp2p_net_multistream_handle_message(fd)`.  Returns `retVal`
and the socket state. -/
def libp2p_net_multistream_handle_message (codec : MessageCodec) (fuel : Nat) (s : Sock) :
    Option (Run (Int × Sock)) :=
  -- libp2p_net_multistream_receive(fd, (char**)&results, &results_size);   (the result is dropped)
  match libp2p_net_multistream_receive fuel s with
  | none => none
  | some .overflow => some .overflow
  | some .indeterminate => some .indeterminate
  | some (.done r) =>
    -- unsigned char* results = NULL; size_t results_size = 0;
    let results := r.results.getD []
    let results_size := r.results_size.getD 0
    match codec.decode (results.take results_size) with
    | none => some (.done (0, r.sock))
    | some msg =>
      if msg.message_type = codec.MESSAGE_TYPE_PING then
        let handled := libp2p_net_multistream_handle_ping codec r.sock msg
        some (.done (1, handled.2))
      else some (.done (1, r.sock))

/-! ## The descriptor opened by `connect` -/

/-- The part of the process state the handshake acts on: the descriptors that
are open, and the state of the socket behind the descriptor of the connection. -/
structure Process where
  open_fds : List Int
  sock : Sock
  deriving DecidableEq, Repr

/-- Modelled from the spec: `socket_open4()` of `p2pnet.h`, which is not among
the sources.  `fd` is the value the system hands out: a descriptor that is open
from then on, or a negative value when no socket could be opened. -/
def socket_open4 (p : Process) (fd : Int) : Int × Process :=
  if 0 ≤ fd then (fd, { p with open_fds := fd :: p.open_fds }) else (fd, p)

/-- Modelled from the spec: `socket_connect4(socket, ip, port)` of `p2pnet.h`,
which is not among the sources.  `connected` is its result (0 on success); the
descriptor stays open either way. -/
def socket_connect4 (p : Process) (_socket : Int) (connected : Int) : Int × Process :=
  (connected, p)

/-- Modelled from the spec: closing a descriptor (`close(fd)`), the one
operation that takes a descriptor out of the open ones. -/
def socket_close (p : Process) (fd : Int) : Process :=
  { p with open_fds := p.open_fds.filter (fun d => d ≠ fd) }

/-- The function `libp2p_net_multistream_connect(hostname, port)` once more,
statement by statement, now on the process state, so that the descriptor is
followed from `socket_open4` to the return.  `fd` is what the system hands out
to `socket_open4`, `connected` what `socket_connect4` returns.  Every return
goes through `exit:`, whose only statement before `return retVal;` is
`if (results != NULL) free(results);`. -/
def libp2p_net_multistream_connect_process (fuel : Nat) (fd : Int) (connected : Int)
    (p : Process) (trail : List Nat) : Option (Run (Int × Process)) :=
  -- socket = socket_open4();
  let opened := socket_open4 p fd
  let socket := opened.1
  -- if (socket_connect4(socket, ip, port) != 0) goto exit;
  let conn := socket_connect4 opened.2 socket connected
  if conn.1 ≠ 0 then some (.done (-1, conn.2))
  else
    -- num_bytes = libp2p_net_multistream_send(socket, protocol_buffer, strlen(protocol_buffer));
    let sent := libp2p_net_multistream_send conn.2.sock protocolID
    let num_bytes : Nat := (sent.1 % (2 : Int) ^ 64).toNat
    if num_bytes ≤ 0 then some (.done (-1, { conn.2 with sock := sent.2 }))
    else
      -- return_result = libp2p_net_multistream_receive(socket, &results, &results_size);
      match libp2p_net_multistream_receive fuel sent.2 with
      | none => none
      | some .overflow => some .overflow
      | some .indeterminate => some .indeterminate
      | some (.done r) =>
        if r.ret = 0 then some (.done (-1, { conn.2 with sock := r.sock }))
        else
          match r.results_size, r.results with
          | some results_size, some results =>
            if results_size < 1 then some (.done (-1, { conn.2 with sock := r.sock }))
            else if strstr (results ++ trail) multistream = false then
              some (.done (-1, { conn.2 with sock := r.sock }))
            else some (.done (socket, { conn.2 with sock := r.sock }))
          | _, _ => some .indeterminate

/-! ## Facts about the varint codec -/


theorem varint_bytes_small {n : Nat} (h : n < 128) : varint_bytes n = [n] := by
  rw [varint_bytes]; simp [h]

theorem varint_bytes_large {n : Nat} (h : 128 ≤ n) :
    varint_bytes n = (n % 128 + 128) :: varint_bytes (n / 128) := by
  rw [varint_bytes]; simp [Nat.not_lt.mpr h]

/-- The encoding of `n` is a run of continuation bytes followed by one final byte. -/
theorem varint_bytes_shape (n : Nat) :
    ∃ hi last, varint_bytes n = hi ++ [last] ∧ (∀ b ∈ hi, 128 ≤ b ∧ b < 256) ∧
      last < 128 ∧ (1 ≤ n → 1 ≤ last) := by
  induction n using Nat.strong_induction_on with
  | _ n ih =>
    by_cases h : n < 128
    · exact ⟨[], n, by simp [varint_bytes_small h], by simp, h, fun h1 => h1⟩
    · have h128 : 128 ≤ n := Nat.not_lt.mp h
      obtain ⟨hi, last, he, hhi, hl, hp⟩ := ih (n / 128) (by omega)
      refine ⟨(n % 128 + 128) :: hi, last, ?_, ?_, hl, fun _ => hp (by omega)⟩
      · rw [varint_bytes_large h128, he]; rfl
      · intro b hb
        rcases List.mem_cons.mp hb with rfl | hb
        · omega
        · exact hhi b hb

theorem varint_bytes_length_le (k : Nat) : ∀ n, n < 128 ^ (k + 1) → (varint_bytes n).length ≤ k + 1 := by
  induction k with
  | zero => intro n h; rw [varint_bytes_small (by simpa using h)]; simp
  | succ k ih =>
    intro n h
    by_cases h1 : n < 128
    · rw [varint_bytes_small h1]; simp
    · rw [varint_bytes_large (Nat.not_lt.mp h1)]
      have : n / 128 < 128 ^ (k + 1) := by
        rw [Nat.div_lt_iff_lt_mul (by norm_num)]
        calc n < 128 ^ (k + 1 + 1) := h
          _ = 128 ^ (k + 1) * 128 := by ring
      have := ih _ this
      simp; omega

theorem varint_scan_bytes (n : Nat) (rest : List Nat) :
    varint_scan (varint_bytes n ++ rest) = .ok (n, (varint_bytes n).length) := by
  induction n using Nat.strong_induction_on with
  | _ n ih =>
    by_cases h : n < 128
    · simp [varint_bytes_small h, varint_scan, h]
    · have h128 : 128 ≤ n := Nat.not_lt.mp h
      rw [varint_bytes_large h128]
      have hlt : ¬ (n % 128 + 128 < 128) := by omega
      have hv : (n % 128 + 128) % 128 + 128 * (n / 128) = n := by omega
      rw [List.cons_append, varint_scan, if_neg hlt, ih (n / 128) (by omega)]
      simp only [List.length_cons, hv]

theorem varint_decode_bytes (n : Nat) (h : n < 2 ^ 64) :
    varint_decode (varint_bytes n) = .ok (n, (varint_bytes n).length) := by
  have := varint_scan_bytes n []
  simp only [List.append_nil] at this
  have h2 : n < 18446744073709551616 := by simpa using h
  simp [varint_decode, this, h2]

theorem varint_encode_ok (n : Nat) (h : n < 2 ^ 64) : varint_encode n 12 = .ok (varint_bytes n) := by
  have : (varint_bytes n).length ≤ 9 + 1 := varint_bytes_length_le 9 n (by
    calc n < 2 ^ 64 := h
      _ ≤ 128 ^ (9 + 1) := by norm_num)
  simp [varint_encode]; omega

/-! ## Facts about `socket_write` and `send` -/


/-- A write that does not fail puts a prefix of the data on the transport and
returns its length. -/
theorem socket_write_prefix (s : Sock) (data : List Nat)
    (h : ∀ e ∈ s.writes.take 1, ∃ k, e = WriteEvent.short k) :
    ∃ w, w <+: data ∧ (socket_write s data).1 = (w.length : Int) ∧
      (socket_write s data).2 = { s with outbox := s.outbox ++ w, writes := s.writes.tail } := by
  rcases hs : s.writes with _ | ⟨e, r⟩
  · exact ⟨data, List.prefix_refl _, by simp [socket_write, hs], by simp [socket_write, hs]⟩
  · obtain ⟨k, rfl⟩ := h e (by simp [hs])
    exact ⟨data.take k, List.take_prefix _ _, by simp [socket_write, hs],
      by simp [socket_write, hs]⟩

/-- A write the transport accepts in full. -/
theorem socket_write_full (s : Sock) (data : List Nat)
    (h : ∀ e ∈ s.writes.take 1, ∃ k, e = WriteEvent.short k ∧ data.length ≤ k) :
    socket_write s data =
      ((data.length : Int), { s with outbox := s.outbox ++ data, writes := s.writes.tail }) := by
  rcases hs : s.writes with _ | ⟨e, r⟩
  · simp [socket_write, hs]
  · obtain ⟨k, rfl, hk⟩ := h e (by simp [hs])
    simp [socket_write, hs, List.take_of_length_le hk, hk]

theorem varint_bytes_ne_nil (n : Nat) : varint_bytes n ≠ [] := by
  obtain ⟨hi, last, he, _⟩ := varint_bytes_shape n
  simp [he]

theorem c_int_of_range {x : Int} (h1 : -2147483648 ≤ x) (h2 : x ≤ 2147483647) :
    c_int x = x := by
  unfold c_int; omega

theorem c_int_natCast {n : Nat} (h : n ≤ 2147483647) : c_int (n : Int) = (n : Int) :=
  c_int_of_range (by omega) (by omega)

theorem send_unfold (s : Sock) (data : List Nat) (hne : data ≠ []) (hsz : data.length < 2 ^ 64) :
    libp2p_net_multistream_send s data =
      if c_int (socket_write s (varint_bytes data.length)).1 = 0 then
        (0, (socket_write s (varint_bytes data.length)).2)
      else
        (c_int (c_int (socket_write s (varint_bytes data.length)).1 +
            c_int (socket_write (socket_write s (varint_bytes data.length)).2 data).1),
          (socket_write (socket_write s (varint_bytes data.length)).2 data).2) := by
  have hpos : data.length > 0 := List.length_pos.mpr hne
  simp only [libp2p_net_multistream_send, hpos, if_true, varint_encode_ok _ hsz]

theorem varint_bytes_length_le_ten {n : Nat} (h : n < 2 ^ 64) : (varint_bytes n).length ≤ 10 :=
  varint_bytes_length_le 9 n (by
    calc n < 2 ^ 64 := h
      _ ≤ 128 ^ (9 + 1) := by norm_num)

/-! ## `send`: wire format, empty payload, short writes -/

/-- The socket after `send` on a transport that accepts both writes in full. -/
theorem send_accepting_state (s : Sock) (payload : List Nat) (hne : payload ≠ [])
    (hsz : payload.length < 2 ^ 64)
    (hfull : ∀ e ∈ s.writes, ∃ k, e = WriteEvent.short k ∧
      (varint_bytes payload.length).length ≤ k ∧ payload.length ≤ k) :
    (libp2p_net_multistream_send s payload).2 =
      { s with outbox := s.outbox ++ (varint_bytes payload.length ++ payload),
               writes := s.writes.drop 2 } := by
  have h1 : ∀ e ∈ s.writes.take 1, ∃ k, e = WriteEvent.short k ∧
      (varint_bytes payload.length).length ≤ k := fun e he => by
    obtain ⟨k, hk, hv, _⟩ := hfull e (List.mem_of_mem_take he)
    exact ⟨k, hk, hv⟩
  have h2 : ∀ e ∈ s.writes.tail.take 1, ∃ k, e = WriteEvent.short k ∧ payload.length ≤ k :=
    fun e he => by
      obtain ⟨k, hk, _, hp⟩ := hfull e (List.mem_of_mem_tail (List.mem_of_mem_take he))
      exact ⟨k, hk, hp⟩
  have hv : 0 < (varint_bytes payload.length).length :=
    List.length_pos.mpr (varint_bytes_ne_nil payload.length)
  have hv10 := varint_bytes_length_le_ten hsz
  rw [send_unfold s payload hne hsz, socket_write_full s _ h1]
  have hv2 : ¬ (c_int ((varint_bytes payload.length).length : Int) = 0) := by
    rw [c_int_natCast (by omega)]
    exact_mod_cast (by omega : (varint_bytes payload.length).length ≠ 0)
  rw [if_neg hv2, socket_write_full _ payload h2]
  have hd : s.writes.tail.tail = s.writes.drop 2 := by
    rcases s.writes with _ | ⟨a, _ | ⟨b, r⟩⟩ <;> rfl
  simp [List.append_assoc, hd]

/-- The result of `send` on a transport that accepts both writes in full, for a
frame whose length fits a C `int`. -/
theorem send_accepting_result (s : Sock) (payload : List Nat) (hne : payload ≠ [])
    (hint : (varint_bytes payload.length).length + payload.length ≤ 2147483647)
    (hfull : ∀ e ∈ s.writes, ∃ k, e = WriteEvent.short k ∧
      (varint_bytes payload.length).length ≤ k ∧ payload.length ≤ k) :
    (libp2p_net_multistream_send s payload).1 =
      (((varint_bytes payload.length).length + payload.length : Nat) : Int) := by
  have hsz : payload.length < 2 ^ 64 := by
    have : (2147483647 : Nat) < 2 ^ 64 := by norm_num
    omega
  have h1 : ∀ e ∈ s.writes.take 1, ∃ k, e = WriteEvent.short k ∧
      (varint_bytes payload.length).length ≤ k := fun e he => by
    obtain ⟨k, hk, hv, _⟩ := hfull e (List.mem_of_mem_take he)
    exact ⟨k, hk, hv⟩
  have h2 : ∀ e ∈ s.writes.tail.take 1, ∃ k, e = WriteEvent.short k ∧ payload.length ≤ k :=
    fun e he => by
      obtain ⟨k, hk, _, hp⟩ := hfull e (List.mem_of_mem_tail (List.mem_of_mem_take he))
      exact ⟨k, hk, hp⟩
  have hv : 0 < (varint_bytes payload.length).length :=
    List.length_pos.mpr (varint_bytes_ne_nil payload.length)
  rw [send_unfold s payload hne hsz, socket_write_full s _ h1]
  have hc1 : c_int ((varint_bytes payload.length).length : Int) =
      ((varint_bytes payload.length).length : Int) := c_int_natCast (by omega)
  have hc2 : c_int (payload.length : Int) = (payload.length : Int) := c_int_natCast (by omega)
  have hv2 : ¬ (c_int ((varint_bytes payload.length).length : Int) = 0) := by
    rw [hc1]
    exact_mod_cast (by omega : (varint_bytes payload.length).length ≠ 0)
  rw [if_neg hv2, socket_write_full _ payload h2]
  simp only [hc1, hc2]
  rw [← Nat.cast_add, c_int_natCast hint]

/-- What `send` does on a transport that accepts both writes in full, for a
frame whose length fits a C `int`. -/
theorem send_accepting (s : Sock) (payload : List Nat) (hne : payload ≠ [])
    (hint : (varint_bytes payload.length).length + payload.length ≤ 2147483647)
    (hfull : ∀ e ∈ s.writes, ∃ k, e = WriteEvent.short k ∧
      (varint_bytes payload.length).length ≤ k ∧ payload.length ≤ k) :
    libp2p_net_multistream_send s payload =
      ((((varint_bytes payload.length).length + payload.length : Nat) : Int),
        { s with outbox := s.outbox ++ (varint_bytes payload.length ++ payload),
                 writes := s.writes.drop 2 }) := by
  have hsz : payload.length < 2 ^ 64 := by
    have : (2147483647 : Nat) < 2 ^ 64 := by norm_num
    omega
  exact Prod.ext (send_accepting_result s payload hne hint hfull)
    (send_accepting_state s payload hne hsz hfull)

/-- C5: for a non-empty payload whose frame length fits the C `int` that `send`
returns, and a transport that accepts every write in full, `send` appends
exactly `varint(len) ++ payload` to the transport and returns the varint's
length plus the payload's length. -/
theorem send_wire_format (s : Sock) (payload : List Nat) (hne : payload ≠ [])
    (hint : (varint_bytes payload.length).length + payload.length ≤ 2147483647)
    (hfull : ∀ e ∈ s.writes, ∃ k, e = WriteEvent.short k ∧
      (varint_bytes payload.length).length ≤ k ∧ payload.length ≤ k) :
    (libp2p_net_multistream_send s payload).2.outbox =
        s.outbox ++ (varint_bytes payload.length ++ payload) ∧
      (libp2p_net_multistream_send s payload).1 =
        (((varint_bytes payload.length).length + payload.length : Nat) : Int) ∧
      (libp2p_net_multistream_send s payload).2 =
        { s with outbox := s.outbox ++ (varint_bytes payload.length ++ payload),
                 writes := s.writes.drop 2 } := by
  have h := send_accepting s payload hne hint hfull
  refine ⟨?_, ?_, ?_⟩
  · rw [h]
  · rw [h]
  · rw [h]

theorem send_wire_format_witness :
    ([1, 2, 3] : List Nat) ≠ [] ∧
    (libp2p_net_multistream_send
        { inbox := [], reads := [], outbox := [9], writes := [] } [1, 2, 3]).2.outbox =
      [9] ++ (varint_bytes 3 ++ [1, 2, 3]) ∧
    (libp2p_net_multistream_send
        { inbox := [], reads := [], outbox := [9], writes := [] } [1, 2, 3]).1 =
      (((varint_bytes 3).length + 3 : Nat) : Int) :=
  ⟨by decide,
   (send_wire_format { inbox := [], reads := [], outbox := [9], writes := [] } [1, 2, 3]
     (by decide) (by simp [varint_bytes_small]) (by simp)).1,
   (send_wire_format { inbox := [], reads := [], outbox := [9], writes := [] } [1, 2, 3]
     (by decide) (by simp [varint_bytes_small]) (by simp)).2.1⟩

/-- C6: `send` with `data_length = 0` returns 0 and leaves the transport as it was. -/
theorem send_empty (s : Sock) : libp2p_net_multistream_send s [] = (0, s) := by
  simp [libp2p_net_multistream_send]

/-- What `send` does when the two calls of `socket_write` return counts: the
first takes `k1` bytes at most, the second `k2` bytes at most. -/
theorem send_on_counts (s : Sock) (payload : List Nat) (k1 k2 : Nat) (rest : List WriteEvent)
    (hne : payload ≠ [])
    (hint : (varint_bytes payload.length).length + payload.length ≤ 2147483647)
    (hw : s.writes = WriteEvent.short k1 :: WriteEvent.short k2 :: rest) :
    libp2p_net_multistream_send s payload =
      if k1 = 0 then (0, { s with writes := WriteEvent.short k2 :: rest })
      else
        (((min k1 (varint_bytes payload.length).length + min k2 payload.length : Nat) : Int),
          { s with outbox := s.outbox ++
                     ((varint_bytes payload.length).take k1 ++ payload.take k2),
                   writes := rest }) := by
  have hsz : payload.length < 2 ^ 64 := by
    have : (2147483647 : Nat) < 2 ^ 64 := by norm_num
    omega
  have hv : 0 < (varint_bytes payload.length).length :=
    List.length_pos.mpr (varint_bytes_ne_nil payload.length)
  have hw1 : socket_write s (varint_bytes payload.length) =
      ((((varint_bytes payload.length).take k1).length : Int),
        { s with outbox := s.outbox ++ (varint_bytes payload.length).take k1,
                 writes := WriteEvent.short k2 :: rest }) := by
    simp [socket_write, hw]
  have hw2 : socket_write
      { s with outbox := s.outbox ++ (varint_bytes payload.length).take k1,
               writes := WriteEvent.short k2 :: rest } payload =
      (((payload.take k2).length : Int),
        { s with outbox := s.outbox ++ (varint_bytes payload.length).take k1 ++ payload.take k2,
                 writes := rest }) := by
    simp [socket_write]
  have hl1 : ((varint_bytes payload.length).take k1).length =
      min k1 (varint_bytes payload.length).length := List.length_take _ _
  have hl2 : (payload.take k2).length = min k2 payload.length := List.length_take _ _
  have hm1 : min k1 (varint_bytes payload.length).length ≤ (varint_bytes payload.length).length :=
    Nat.min_le_right _ _
  have hm2 : min k2 payload.length ≤ payload.length := Nat.min_le_right _ _
  rw [send_unfold s payload hne hsz, hw1]
  dsimp only
  rw [hw2, hl1, hl2, c_int_natCast (by omega), c_int_natCast (by omega), ← Nat.cast_add,
    c_int_natCast (by omega)]
  by_cases hk : k1 = 0
  · subst hk
    simp
  · have hpos : min k1 (varint_bytes payload.length).length ≠ 0 := by
      have : 1 ≤ min k1 (varint_bytes payload.length).length := by
        rw [Nat.le_min]; omega
      omega
    have hne0 : ¬ (((min k1 (varint_bytes payload.length).length : Nat) : Int) = 0) := by
      exact_mod_cast hpos
    rw [if_neg hne0, if_neg hk]
    simp [List.append_assoc]

/-- C7 (as stated, refuted): with a transport that takes the varint in full and
then only 5 of the 19 payload bytes, `send` returns 6, which neither caller
check treats as failure, although the frame is not whole on the transport. -/
theorem send_short_write_reports_success :
    ¬ ((libp2p_net_multistream_send
          { inbox := [], reads := [], outbox := [], writes := [.short 1, .short 5] }
          protocolID).2.outbox = varint_bytes protocolID.length ++ protocolID ∨
       (libp2p_net_multistream_send
          { inbox := [], reads := [], outbox := [], writes := [.short 1, .short 5] }
          protocolID).1 ≤ 0) := by
  have hv : varint_bytes 19 = [19] := varint_bytes_small (by norm_num)
  rw [send_on_counts _ protocolID 1 5 [] (by decide) (by simp [protocolID, hv]) rfl]
  simp [protocolID, hv]

/-- C7 (amended): for a non-empty payload whose frame length fits a C `int` and a
transport whose two calls of `socket_write` return counts (at most `k1` bytes
of the varint, at most `k2` bytes of the payload, no negative result), `send`
makes one write of `varint(len)` and, unless that write returned 0 (then it
returns 0 and does not write the payload), one write of the payload, with no
retry: the bytes put on the transport are the first `min k1 len(varint)` bytes
of the varint followed by the first `min k2 len(payload)` bytes of the payload,
and their number is returned.  After a short write the result is positive and
smaller than the frame length, and the frame is whole on the transport exactly
when the result is `len(varint) + len(payload)`. -/
theorem send_reports_bytes_written (s : Sock) (payload : List Nat) (k1 k2 : Nat)
    (rest : List WriteEvent) (hne : payload ≠ [])
    (hint : (varint_bytes payload.length).length + payload.length ≤ 2147483647)
    (hw : s.writes = WriteEvent.short k1 :: WriteEvent.short k2 :: rest) :
    (k1 = 0 → libp2p_net_multistream_send s payload =
      (0, { s with writes := WriteEvent.short k2 :: rest })) ∧
    (0 < k1 → libp2p_net_multistream_send s payload =
      (((min k1 (varint_bytes payload.length).length + min k2 payload.length : Nat) : Int),
        { s with outbox := s.outbox ++
                   ((varint_bytes payload.length).take k1 ++ payload.take k2),
                 writes := rest })) ∧
    (0 < k1 → (k1 < (varint_bytes payload.length).length ∨ k2 < payload.length) →
      0 < (libp2p_net_multistream_send s payload).1 ∧
      (libp2p_net_multistream_send s payload).1 <
        (((varint_bytes payload.length).length + payload.length : Nat) : Int) ∧
      (libp2p_net_multistream_send s payload).2.outbox ≠
        s.outbox ++ (varint_bytes payload.length ++ payload)) ∧
    ((libp2p_net_multistream_send s payload).2.outbox =
        s.outbox ++ (varint_bytes payload.length ++ payload) ↔
      (libp2p_net_multistream_send s payload).1 =
        (((varint_bytes payload.length).length + payload.length : Nat) : Int)) := by
  have hsend := send_on_counts s payload k1 k2 rest hne hint hw
  have hv : 0 < (varint_bytes payload.length).length :=
    List.length_pos.mpr (varint_bytes_ne_nil payload.length)
  have hp : 0 < payload.length := List.length_pos.mpr hne
  have hlen : ((varint_bytes payload.length).take k1 ++ payload.take k2).length =
      min k1 (varint_bytes payload.length).length + min k2 payload.length := by
    simp [List.length_take]
  refine ⟨?_, ?_, ?_, ?_⟩
  · intro hk
    rw [hsend, if_pos hk]
  · intro hk
    rw [hsend, if_neg (by omega)]
  · intro hk hshort
    rw [hsend, if_neg (by omega)]
    dsimp only
    have hm1 : 1 ≤ min k1 (varint_bytes payload.length).length := by
      rw [Nat.le_min]; omega
    have hlt : min k1 (varint_bytes payload.length).length + min k2 payload.length <
        (varint_bytes payload.length).length + payload.length := by
      have a1 : min k1 (varint_bytes payload.length).length ≤
          (varint_bytes payload.length).length := Nat.min_le_right _ _
      have a2 : min k2 payload.length ≤ payload.length := Nat.min_le_right _ _
      rcases hshort with h | h
      · have : min k1 (varint_bytes payload.length).length = k1 := Nat.min_eq_left (by omega)
        omega
      · have : min k2 payload.length = k2 := Nat.min_eq_left (by omega)
        omega
    refine ⟨by exact_mod_cast (by omega : 0 < min k1 (varint_bytes payload.length).length +
      min k2 payload.length), by exact_mod_cast hlt, ?_⟩
    intro h
    have h' := List.append_cancel_left h
    have := congrArg List.length h'
    rw [hlen, List.length_append] at this
    omega
  · rw [hsend]
    by_cases hk : k1 = 0
    · rw [if_pos hk]
      dsimp only
      constructor
      · intro h
        have := congrArg List.length h
        simp only [List.length_append] at this
        omega
      · intro h
        have : (0 : Nat) = (varint_bytes payload.length).length + payload.length := by
          exact_mod_cast h
        omega
    · rw [if_neg hk]
      dsimp only
      constructor
      · intro h
        have h' := List.append_cancel_left h
        have := congrArg List.length h'
        rw [hlen, List.length_append] at this
        exact_mod_cast this
      · intro h
        have hsum : min k1 (varint_bytes payload.length).length + min k2 payload.length =
            (varint_bytes payload.length).length + payload.length := by exact_mod_cast h
        have a1 : min k1 (varint_bytes payload.length).length ≤
            (varint_bytes payload.length).length := Nat.min_le_right _ _
        have a2 : min k2 payload.length ≤ payload.length := Nat.min_le_right _ _
        have b1 : (varint_bytes payload.length).length ≤ k1 := by
          by_contra hc
          have : min k1 (varint_bytes payload.length).length = k1 := Nat.min_eq_left (by omega)
          omega
        have b2 : payload.length ≤ k2 := by
          by_contra hc
          have : min k2 payload.length = k2 := Nat.min_eq_left (by omega)
          omega
        rw [List.take_of_length_le b1, List.take_of_length_le b2]

theorem send_reports_bytes_written_witness :
    libp2p_net_multistream_send
        { inbox := [], reads := [], outbox := [], writes := [.short 1, .short 5] }
        protocolID =
      (6, { inbox := [], reads := [], outbox := [19, 47, 109, 117, 108, 116], writes := [] }) ∧
    libp2p_net_multistream_send
        { inbox := [], reads := [], outbox := [], writes := [.short 0, .short 5] }
        protocolID =
      (0, { inbox := [], reads := [], outbox := [], writes := [.short 5] }) := by
  have hv : varint_bytes 19 = [19] := varint_bytes_small (by norm_num)
  refine ⟨?_, ?_⟩
  · rw [(send_reports_bytes_written
      { inbox := [], reads := [], outbox := [], writes := [.short 1, .short 5] }
      protocolID 1 5 [] (by decide) (by simp [protocolID, hv]) rfl).2.1 (by decide)]
    simp [protocolID, hv]
  · exact (send_reports_bytes_written
      { inbox := [], reads := [], outbox := [], writes := [.short 0, .short 5] }
      protocolID 0 5 [] (by decide) (by simp [protocolID, hv]) rfl).1 rfl

/-! ## Facts about the two loops of `receive` -/


theorem store_at_end (buffer d : List Nat) : store buffer buffer.length d = buffer ++ d := by
  simp [store]

theorem store_take (buffer d : List Nat) (off : Nat) (h : off ≤ buffer.length) :
    (store buffer off d).take (off + d.length) = buffer.take off ++ d := by
  have hl : (buffer.take off ++ d).length = off + d.length := by
    simp [List.length_take, Nat.min_eq_left h]
  rw [store, ← hl, List.take_left]

theorem store_length (buffer d : List Nat) (off : Nat) (h : off ≤ buffer.length) :
    off + d.length ≤ (store buffer off d).length := by
  simp [store, List.length_take, Nat.min_eq_left h]

theorem cstr_append_zero (l t : List Nat) (h : ∀ b ∈ l, b ≠ 0) : cstr (l ++ 0 :: t) = l := by
  induction l with
  | nil => simp [cstr]
  | cons a l ih =>
    have ha : a ≠ 0 := h a (by simp)
    have := ih (fun b hb => h b (by simp [hb]))
    simp only [cstr] at this ⊢
    rw [List.cons_append, List.takeWhile_cons]
    simp only [ne_eq, ha, not_false_eq_true, decide_True, if_true]
    rw [this]

/-- One byte read while the script lets data through. -/
theorem socket_read_one (s : Sock) (c : Nat) (rest : List Nat) (hin : s.inbox = c :: rest)
    (hev : ∀ e ∈ s.reads.take 1, ∃ k, 1 ≤ k ∧ e = ReadEvent.deliver k) :
    socket_read s 1 = (.data [c], { s with inbox := rest, reads := s.reads.tail }) := by
  rcases hs : s.reads with _ | ⟨e, r⟩
  · simp [socket_read, hs, Sock.take, hin]
  · obtain ⟨k, hk, rfl⟩ := hev e (by simp [hs])
    simp [socket_read, hs, Sock.take, hin, Nat.min_eq_right hk]

/-- The first loop on a run of continuation bytes closed by a final byte. -/
theorem read_varint_run (rest : List Nat) (last : Nat) (hlast : last >>> 7 = 0) :
    ∀ (hi : List Nat) (fuel : Nat) (s : Sock) (buffer : List Nat),
      (∀ b ∈ hi, b >>> 7 ≠ 0) → s.inbox = hi ++ last :: rest →
      (∀ e ∈ s.reads.take (hi.length + 1), ∃ k, 1 ≤ k ∧ e = ReadEvent.deliver k) →
      hi.length + 1 ≤ fuel → buffer.length + hi.length + 1 < buffer_size →
      read_varint fuel s buffer buffer.length =
        some (.done (decoded_length (buffer ++ hi ++ [last, 0]), buffer ++ hi ++ [last, 0],
          { s with inbox := rest, reads := s.reads.drop (hi.length + 1) })) := by
  intro hi
  induction hi with
  | nil =>
    intro fuel s buffer _ hin hev hfuel hsize
    obtain ⟨f, rfl⟩ : ∃ f, fuel = f + 1 := ⟨fuel - 1, by simp at hfuel; omega⟩
    have hr := socket_read_one s last rest (by simpa using hin) (by simpa using hev)
    have h1 : ¬ buffer_size ≤ buffer.length := by simp at hsize; omega
    have h2 : ¬ buffer_size ≤ buffer.length + 1 := by simp at hsize; omega
    have hst : store (buffer ++ [last]) (buffer.length + 1) [0] = buffer ++ [last] ++ [0] := by
      have := store_at_end (buffer ++ [last]) [0]
      simpa using this
    simp only [read_varint, hr, List.headD_cons, h1, h2, if_false, store_at_end, hlast, if_true,
      hst]
    simp [List.drop_one]
  | cons b hi ih =>
    intro fuel s buffer hhi hin hev hfuel hsize
    obtain ⟨f, rfl⟩ : ∃ f, fuel = f + 1 := ⟨fuel - 1, by simp at hfuel; omega⟩
    have hr := socket_read_one s b (hi ++ last :: rest) (by simpa using hin)
      (fun e he => hev e (by
        rcases hs : s.reads with _ | ⟨a, r⟩
        · simp [hs] at he
        · simp [hs] at he ⊢; exact Or.inl he))
    have hb : ¬ (b >>> 7 = 0) := hhi b (by simp)
    have h1 : ¬ buffer_size ≤ buffer.length := by simp at hsize; omega
    simp only [read_varint, hr, List.headD_cons, h1, if_false, store_at_end, hb]
    have hlen : (buffer ++ [b]).length = buffer.length + 1 := by simp
    rw [← hlen]
    rw [ih f _ (buffer ++ [b]) (fun x hx => hhi x (by simp [hx])) rfl ?_ ?_ ?_]
    · simp [List.drop_drop, Nat.add_comm]
    · intro e he
      apply hev e
      rcases hs : s.reads with _ | ⟨a, r⟩
      · simp [hs] at he
      · simp only [hs, List.tail_cons] at he
        simp only [List.length_cons, List.take_succ_cons]
        exact List.mem_cons_of_mem _ he
    · simp at hfuel; omega
    · simp at hsize ⊢; omega

theorem sock_take_data (s : Sock) (m : Nat) (r : List ReadEvent) (d rest : List Nat)
    (hin : s.inbox = d ++ rest) (hd : d ≠ []) (hm : d.length = m) :
    s.take m r = (.data d, { s with inbox := rest, reads := r }) := by
  have ht : s.inbox.take m = d := by rw [hin, ← hm, List.take_left]
  have hdr : s.inbox.drop m = rest := by rw [hin, ← hm, List.drop_left]
  obtain ⟨b, bs, rfl⟩ := List.exists_cons_of_ne_nil hd
  simp only [Sock.take, ht, hdr]

/-- The second loop on a script of short reads and `EAGAIN`s: it ends with the
payload stored at the start of the buffer and the input advanced past it. -/
theorem read_payload_run :
    ∀ (sched : List ReadEvent) (fuel : Nat) (s : Sock) (buffer : List Nat)
      (left already_read : Nat) (payload rest : List Nat),
      s.reads = sched →
      (∀ e ∈ sched, e = ReadEvent.again ∨ ∃ k, 1 ≤ k ∧ e = ReadEvent.deliver k) →
      s.inbox = payload ++ rest → payload.length = left → 0 < left →
      already_read + left ≤ buffer_size → already_read ≤ buffer.length →
      sched.length + 1 ≤ fuel →
      ∃ buffer' reads', reads' <:+ sched ∧
        buffer'.take (already_read + left) = buffer.take already_read ++ payload ∧
        read_payload fuel s buffer left already_read =
          some (.done (.finished buffer' (already_read + left)
            { s with inbox := rest, reads := reads' })) := by
  intro sched
  induction sched with
  | nil =>
    intro fuel s buffer left already_read payload rest hs _ hin hlen hpos hsize hbuf hfuel
    obtain ⟨f, rfl⟩ : ∃ f, fuel = f + 1 := ⟨fuel - 1, by omega⟩
    have hne : payload ≠ [] := by intro h; rw [h] at hlen; simp at hlen; omega
    have hr : socket_read s left = (.data payload, { s with inbox := rest, reads := [] }) := by
      simp only [socket_read, hs]
      exact sock_take_data s left [] payload rest hin hne hlen
    refine ⟨store buffer already_read payload, [], List.suffix_refl _, ?_, ?_⟩
    · rw [← hlen]; exact store_take buffer payload already_read hbuf
    · have h1 : ¬ buffer_size < already_read + payload.length := by omega
      have h2 : ¬ (left - payload.length > 0) := by omega
      simp only [read_payload, hr, h1, h2, if_false]
      rw [hlen]
  | cons e r ih =>
    intro fuel s buffer left already_read payload rest hs hev hin hlen hpos hsize hbuf hfuel
    obtain ⟨f, rfl⟩ : ∃ f, fuel = f + 1 := ⟨fuel - 1, by omega⟩
    have hevr : ∀ e ∈ r, e = ReadEvent.again ∨ ∃ k, 1 ≤ k ∧ e = ReadEvent.deliver k :=
      fun x hx => hev x (List.mem_cons_of_mem _ hx)
    have hfr : r.length + 1 ≤ f := by simp at hfuel; omega
    rcases hev e (List.mem_cons_self _ _) with rfl | ⟨k, hk, rfl⟩
    · -- EAGAIN: nothing is read, the loop goes round again
      have hr : socket_read s left = (.again, { s with reads := r }) := by
        simp [socket_read, hs]
      obtain ⟨buffer', reads', hsuf, htake, hrun⟩ :=
        ih f { s with reads := r } buffer left already_read payload rest rfl hevr hin hlen hpos
          hsize hbuf hfr
      refine ⟨buffer', reads', hsuf.trans (List.suffix_cons _ _), htake, ?_⟩
      simp only [read_payload, hr, hpos, if_true]
      exact hrun
    · -- a delivery of `min k left` bytes
      have hm1 : 1 ≤ min k left := by omega
      have hml : min k left ≤ left := Nat.min_le_right _ _
      have hdl : (payload.take (min k left)).length = min k left := by
        simp [List.length_take, hlen]
      have hdne : payload.take (min k left) ≠ [] := by
        intro h; rw [h] at hdl; simp at hdl; omega
      have hr : socket_read s left = (.data (payload.take (min k left)),
          { s with inbox := payload.drop (min k left) ++ rest, reads := r }) := by
        simp only [socket_read, hs]
        exact sock_take_data s (min k left) r _ _
          (by rw [hin, ← List.append_assoc, List.take_append_drop]) hdne hdl
      have h1 : ¬ buffer_size < already_read + (payload.take (min k left)).length := by
        rw [hdl]; omega
      by_cases hdone : left - (payload.take (min k left)).length > 0
      · have hlen' : (payload.drop (min k left)).length = left - (payload.take (min k left)).length := by
          simp [List.length_drop, hlen, hdl]
        obtain ⟨buffer', reads', hsuf, htake, hrun⟩ :=
          ih f { s with inbox := payload.drop (min k left) ++ rest, reads := r }
            (store buffer already_read (payload.take (min k left)))
            (left - (payload.take (min k left)).length)
            (already_read + (payload.take (min k left)).length)
            (payload.drop (min k left)) rest rfl hevr rfl hlen' hdone
            (by rw [hdl] at hdone ⊢; omega)
            (store_length buffer _ already_read hbuf) hfr
        have hsum : already_read + (payload.take (min k left)).length +
            (left - (payload.take (min k left)).length) = already_read + left := by
          rw [hdl] at hdone ⊢; omega
        rw [hsum] at htake hrun
        refine ⟨buffer', reads', hsuf.trans (List.suffix_cons _ _), ?_, ?_⟩
        · rw [htake, store_take buffer _ already_read hbuf, List.append_assoc,
            List.take_append_drop]
        · simp only [read_payload, hr, h1, hdone, if_false, if_true]
          exact hrun
      · have hfull : min k left = left := by rw [hdl] at hdone; omega
        have hpay : payload.take (min k left) = payload := by
          rw [hfull, ← hlen, List.take_length]
        refine ⟨store buffer already_read (payload.take (min k left)), r,
          List.suffix_cons _ _, ?_, ?_⟩
        · rw [hpay, ← hlen]; exact store_take buffer payload already_read hbuf
        · have hd0 : payload.drop (min k left) = [] := by
            rw [hfull, ← hlen, List.drop_length]
          simp only [read_payload, hr, h1, hdone, if_false]
          rw [hd0, List.nil_append, hdl, hfull]


theorem shift7_eq_zero {b : Nat} (h : b < 128) : b >>> 7 = 0 := by
  rw [Nat.shiftRight_eq_div_pow]; exact Nat.div_eq_of_lt (by simpa using h)

theorem shift7_ne_zero {b : Nat} (h : 128 ≤ b) : b >>> 7 ≠ 0 := by
  rw [Nat.shiftRight_eq_div_pow]
  have : 0 < b / 2 ^ 7 := Nat.div_pos (by simpa using h) (by norm_num)
  omega

/-- The length the first loop computes from the encoding of `n`. -/
theorem decoded_length_bytes (n : Nat) (h1 : 1 ≤ n) (h2 : n < 2 ^ 64) :
    decoded_length (varint_bytes n ++ [0]) = n := by
  obtain ⟨hi, last, he, hhi, _, hp⟩ := varint_bytes_shape n
  have hnz : ∀ b ∈ varint_bytes n, b ≠ 0 := by
    intro b hb
    rw [he] at hb
    rcases List.mem_append.mp hb with hb | hb
    · have := (hhi b hb).1; omega
    · have : b = last := by simpa using hb
      have := hp h1; omega
  have hc : cstr (varint_bytes n ++ [0]) = varint_bytes n := cstr_append_zero _ [] hnz
  simp [decoded_length, strlen, hc, varint_decode_bytes n h2]

/-- One whole frame at the head of the input: `receive` returns its payload and
leaves the input just after it.  The varint bytes come one per read; the reads
of the payload may be short or answer `EAGAIN`. -/
theorem receive_frame (fuel : Nat) (s : Sock) (payload rest : List Nat)
    (h1 : 1 ≤ payload.length) (h2 : payload.length ≤ 65535)
    (hin : s.inbox = varint_bytes payload.length ++ (payload ++ rest))
    (hpre : ∀ e ∈ s.reads.take (varint_bytes payload.length).length,
      ∃ k, 1 ≤ k ∧ e = ReadEvent.deliver k)
    (hsched : ∀ e ∈ s.reads.drop (varint_bytes payload.length).length,
      e = ReadEvent.again ∨ ∃ k, 1 ≤ k ∧ e = ReadEvent.deliver k)
    (hf1 : (varint_bytes payload.length).length ≤ fuel)
    (hf2 : (s.reads.drop (varint_bytes payload.length).length).length + 1 ≤ fuel) :
    ∃ reads', reads' <:+ s.reads.drop (varint_bytes payload.length).length ∧
      libp2p_net_multistream_receive fuel s =
        some (.done { ret := (payload.length : Int), results := some payload,
                      results_size := some payload.length,
                      sock := { s with inbox := rest, reads := reads' } }) := by
  have hlt : payload.length < 2 ^ 64 := by
    have : (65535 : Nat) < 2 ^ 64 := by norm_num
    omega
  obtain ⟨hi, last, he, hhi, hl, _⟩ := varint_bytes_shape payload.length
  have hL : (varint_bytes payload.length).length = hi.length + 1 := by simp [he]
  have hL10 : (varint_bytes payload.length).length ≤ 9 + 1 :=
    varint_bytes_length_le 9 _ (by
      calc payload.length < 2 ^ 64 := hlt
        _ ≤ 128 ^ (9 + 1) := by norm_num)
  have hv := read_varint_run (payload ++ rest) last (shift7_eq_zero hl) hi fuel s []
    (fun b hb => shift7_ne_zero (hhi b hb).1)
    (by rw [hin, he]; simp)
    (by rw [← hL]; exact hpre) (by omega) (by simp [buffer_size]; omega)
  have hbuf : [] ++ hi ++ [last, 0] = varint_bytes payload.length ++ [0] := by simp [he]
  rw [hbuf, decoded_length_bytes _ h1 hlt, ← hL] at hv
  obtain ⟨buffer', reads', hsuf, htake, hrun⟩ :=
    read_payload_run (s.reads.drop (varint_bytes payload.length).length) fuel
      { s with inbox := payload ++ rest,
               reads := s.reads.drop (varint_bytes payload.length).length }
      (varint_bytes payload.length ++ [0]) payload.length 0 payload rest rfl hsched rfl rfl
      (by omega) (by simp [buffer_size]; omega) (by simp) hf2
  refine ⟨reads', hsuf, ?_⟩
  have hv' : read_varint fuel s [] 0 = some (.done (payload.length,
      varint_bytes payload.length ++ [0],
      { s with inbox := payload ++ rest,
               reads := s.reads.drop (varint_bytes payload.length).length })) := by
    simpa using hv
  have hn0 : ¬ payload.length ≤ 0 := by omega
  simp only [Nat.zero_add, List.take_zero, List.nil_append] at htake hrun
  simp only [libp2p_net_multistream_receive, hv', hn0, if_false, hrun, ne_eq, not_true_eq_false,
    htake]


theorem varint_bytes_length_le_three {n : Nat} (h : n ≤ 65535) : (varint_bytes n).length ≤ 3 :=
  varint_bytes_length_le 2 n (by
    calc n ≤ 65535 := h
      _ < 128 ^ (2 + 1) := by norm_num)

/-- The second loop never leaves `already_read` beyond what the buffer holds. -/
theorem read_payload_buffer_length :
    ∀ (fuel : Nat) (s : Sock) (buffer : List Nat) (left already_read : Nat)
      (buffer' : List Nat) (already_read' : Nat) (s' : Sock),
      already_read ≤ buffer.length →
      read_payload fuel s buffer left already_read =
        some (.done (.finished buffer' already_read' s')) →
      already_read' ≤ buffer'.length := by
  intro fuel
  induction fuel with
  | zero => intro s buffer left ar buffer' ar' s' _ h; simp [read_payload] at h
  | succ f ih =>
    intro s buffer left ar buffer' ar' s' hb h
    rw [read_payload] at h
    rcases hr : socket_read s left with ⟨res, s1⟩
    rw [hr] at h
    cases res with
    | data d =>
      simp only at h
      split at h
      · simp at h
      · split at h
        · exact ih _ _ _ _ _ _ _ (store_length buffer d ar hb) h
        · simp only [Option.some.injEq, Run.done.injEq, LoopExit.finished.injEq] at h
          obtain ⟨rfl, rfl, _⟩ := h
          exact store_length buffer d ar hb
    | eof =>
      simp only at h
      split at h
      · exact ih _ _ _ _ _ _ _ hb h
      · simp only [Option.some.injEq, Run.done.injEq, LoopExit.finished.injEq] at h
        obtain ⟨rfl, rfl, _⟩ := h
        exact hb
    | again =>
      simp only at h
      split at h
      · exact ih _ _ _ _ _ _ _ hb h
      · simp only [Option.some.injEq, Run.done.injEq, LoopExit.finished.injEq] at h
        obtain ⟨rfl, rfl, _⟩ := h
        exact hb
    | error => simp at h

/-- Whenever `receive` hands out a payload, its length is the returned count
and the stored `results_size`. -/
theorem receive_length_matches (fuel : Nat) (s : Sock) (r : Received) (p : List Nat)
    (h : libp2p_net_multistream_receive fuel s = some (.done r)) (hp : r.results = some p) :
    (p.length : Int) = r.ret ∧ r.results_size = some p.length := by
  unfold libp2p_net_multistream_receive at h
  split at h
  · simp at h
  · simp at h
  · simp at h
  · rename_i n buffer s1 hv
    split at h
    · simp only [Option.some.injEq, Run.done.injEq] at h
      subst h; simp at hp
    · split at h
      · simp at h
      · simp at h
      · simp at h
      · simp only [Option.some.injEq, Run.done.injEq] at h
        subst h; simp at hp
      · rename_i buffer' ar s2 hrun
        have hlen := read_payload_buffer_length _ _ _ _ _ _ _ _ (Nat.zero_le _) hrun
        split at h
        · simp only [Option.some.injEq, Run.done.injEq] at h
          subst h; simp at hp
        · rename_i hne
          have hne' : ar = n := by simpa using hne
          simp only [Option.some.injEq, Run.done.injEq] at h
          subst h
          simp only [Option.some.injEq] at hp
          subst hp
          subst hne'
          simp [List.length_take, Nat.min_eq_left hlen]


/-! ## `receive`: round trip and short reads -/

/-- C1: round trip of `send` and `receive`.  For a payload of length 1 to 65535
sent over a transport that accepts every write in full, `receive` on a stream
that delivers exactly the bytes `send` wrote returns the length, stores it in
`results_size` and stores the original payload in `results`. -/
theorem send_receive_round_trip (a b : Sock) (payload : List Nat)
    (h1 : 1 ≤ payload.length) (h2 : payload.length ≤ 65535)
    (hfull : ∀ e ∈ a.writes, ∃ k, e = WriteEvent.short k ∧
      (varint_bytes payload.length).length ≤ k ∧ payload.length ≤ k)
    (ha : a.outbox = [])
    (hb : b.inbox = (libp2p_net_multistream_send a payload).2.outbox) (hr : b.reads = [])
    (fuel : Nat) (hfuel : 3 ≤ fuel) :
    libp2p_net_multistream_receive fuel b =
      some (.done { ret := (payload.length : Int), results := some payload,
                    results_size := some payload.length,
                    sock := { b with inbox := [] } }) := by
  have hne : payload ≠ [] := List.length_pos.mp h1
  have hlt : payload.length < 2 ^ 64 := by
    have : (65535 : Nat) < 2 ^ 64 := by norm_num
    omega
  have hsend : (libp2p_net_multistream_send a payload).2.outbox =
      varint_bytes payload.length ++ (payload ++ []) := by
    rw [send_accepting_state a payload hne hlt hfull]
    simp [ha]
  have h3 := varint_bytes_length_le_three h2
  obtain ⟨reads', hsuf, hrun⟩ := receive_frame fuel b payload [] h1 h2 (hb.trans hsend)
    (by simp [hr]) (by simp [hr]) (by omega) (by simp [hr]; omega)
  have hnil : reads' = [] := by
    rw [hr] at hsuf; simpa using hsuf
  rw [hrun, hnil, ← hr]

theorem send_receive_round_trip_witness :
    libp2p_net_multistream_receive 3
        { inbox := [3, 1, 2, 3], reads := [], outbox := [], writes := [] } =
      some (.done { ret := (([1, 2, 3] : List Nat).length : Int), results := some [1, 2, 3],
                    results_size := some ([1, 2, 3] : List Nat).length,
                    sock := { inbox := [], reads := [], outbox := [], writes := [] } }) :=
  send_receive_round_trip { inbox := [], reads := [], outbox := [], writes := [] }
    { inbox := [3, 1, 2, 3], reads := [], outbox := [], writes := [] } [1, 2, 3]
    (by decide) (by decide) (by simp) rfl
    (by simp [libp2p_net_multistream_send, varint_encode, varint_bytes_small, socket_write, c_int])
    rfl 3 (le_refl 3)

/-- C2: short reads.  For a stream that carries a varint declaring `n`
(1 ≤ n ≤ 65535) followed by at least `n` bytes, and for every way the transport
splits the payload into reads of at least one byte or answers `EAGAIN`,
`receive` returns `n` and exactly the `n` bytes that follow the length prefix,
leaving the rest of the stream unread; and whenever `receive` hands out a
payload, on any stream, its length is the count it returns and stores. -/
theorem receive_partial_delivery (s : Sock) (n : Nat) (following : List Nat)
    (pre sched : List ReadEvent) (h1 : 1 ≤ n) (h2 : n ≤ 65535) (hlen : n ≤ following.length)
    (hin : s.inbox = varint_bytes n ++ following)
    (hreads : s.reads = pre ++ sched) (hprelen : pre.length = (varint_bytes n).length)
    (hpre : ∀ e ∈ pre, ∃ k, 1 ≤ k ∧ e = ReadEvent.deliver k)
    (hsched : ∀ e ∈ sched, e = ReadEvent.again ∨ ∃ k, 1 ≤ k ∧ e = ReadEvent.deliver k)
    (fuel : Nat) (hfuel : sched.length + 3 ≤ fuel) :
    (∃ reads', reads' <:+ sched ∧
      libp2p_net_multistream_receive fuel s =
        some (.done { ret := (n : Int), results := some (following.take n),
                      results_size := some n,
                      sock := { s with inbox := following.drop n, reads := reads' } })) ∧
    (∀ (f : Nat) (t : Sock) (r : Received) (p : List Nat),
      libp2p_net_multistream_receive f t = some (.done r) → r.results = some p →
      (p.length : Int) = r.ret ∧ r.results_size = some p.length) := by
  refine ⟨?_, fun f t r p h hp => receive_length_matches f t r p h hp⟩
  have hpl : (following.take n).length = n := by simp [List.length_take, hlen]
  have h3 := varint_bytes_length_le_three h2
  have htake : s.reads.take (varint_bytes n).length = pre := by
    rw [hreads, ← hprelen, List.take_left]
  have hdrop : s.reads.drop (varint_bytes n).length = sched := by
    rw [hreads, ← hprelen, List.drop_left]
  obtain ⟨reads', hsuf, hrun⟩ := receive_frame fuel s (following.take n) (following.drop n)
    (by omega) (by omega) (by rw [hpl, List.take_append_drop]; exact hin)
    (by rw [hpl, htake]; exact hpre) (by rw [hpl, hdrop]; exact hsched)
    (by rw [hpl]; omega) (by rw [hpl, hdrop]; omega)
  rw [hpl, hdrop] at hsuf
  rw [hpl] at hrun
  exact ⟨reads', hsuf, hrun⟩


theorem receive_partial_delivery_witness :
    (∃ reads', reads' <:+ [ReadEvent.deliver 50, .again, .deliver 50] ∧
      libp2p_net_multistream_receive 6
          { inbox := 100 :: List.replicate 100 7,
            reads := [ReadEvent.deliver 1] ++ [ReadEvent.deliver 50, .again, .deliver 50],
            outbox := [], writes := [] } =
        some (.done { ret := ((100 : Nat) : Int),
                      results := some ((List.replicate 100 7).take 100),
                      results_size := some 100,
                      sock := { inbox := (List.replicate 100 7).drop 100, reads := reads',
                                outbox := [], writes := [] } })) ∧
    (∀ (f : Nat) (t : Sock) (r : Received) (p : List Nat),
      libp2p_net_multistream_receive f t = some (.done r) → r.results = some p →
      (p.length : Int) = r.ret ∧ r.results_size = some p.length) :=
  receive_partial_delivery
    { inbox := 100 :: List.replicate 100 7,
      reads := [ReadEvent.deliver 1] ++ [ReadEvent.deliver 50, .again, .deliver 50],
      outbox := [], writes := [] }
    100 (List.replicate 100 7) [ReadEvent.deliver 1] [ReadEvent.deliver 50, .again, .deliver 50]
    (by decide) (by decide) (by simp) (by simp [varint_bytes_small]) rfl
    (by simp [varint_bytes_small]) (by simp) (by simp) 6 (by simp)


/-! ## `receive`: oversized frames and end of stream -/


theorem varint_65536 : varint_bytes 65536 = [128, 128, 4] := by
  rw [varint_bytes_large (by norm_num), varint_bytes_large (by norm_num),
    varint_bytes_small (by norm_num)]

/-- A declared length above the buffer size, delivered in full by one read. -/
theorem receive_overflow (fuel : Nat) (s : Sock) (payload rest : List Nat)
    (h1 : buffer_size < payload.length) (h2 : payload.length < 2 ^ 64)
    (hin : s.inbox = varint_bytes payload.length ++ (payload ++ rest)) (hr : s.reads = [])
    (hfuel : 10 ≤ fuel) :
    libp2p_net_multistream_receive fuel s = some .overflow := by
  obtain ⟨hi, last, he, hhi, hl, _⟩ := varint_bytes_shape payload.length
  have hL : (varint_bytes payload.length).length = hi.length + 1 := by simp [he]
  have hL10 : (varint_bytes payload.length).length ≤ 9 + 1 :=
    varint_bytes_length_le 9 _ (by
      calc payload.length < 2 ^ 64 := h2
        _ ≤ 128 ^ (9 + 1) := by norm_num)
  have hpos : 1 ≤ payload.length := by simp [buffer_size] at h1; omega
  have hv := read_varint_run (payload ++ rest) last (shift7_eq_zero hl) hi fuel s []
    (fun b hb => shift7_ne_zero (hhi b hb).1)
    (by rw [hin, he]; simp)
    (by simp [hr]) (by omega) (by simp [buffer_size]; omega)
  have hbuf : [] ++ hi ++ [last, 0] = varint_bytes payload.length ++ [0] := by simp [he]
  rw [hbuf, decoded_length_bytes _ hpos h2, ← hL] at hv
  have hv' : read_varint fuel s [] 0 = some (.done (payload.length,
      varint_bytes payload.length ++ [0],
      { s with inbox := payload ++ rest, reads := [] })) := by
    simpa [hr] using hv
  obtain ⟨f, rfl⟩ : ∃ f, fuel = f + 1 := ⟨fuel - 1, by omega⟩
  have hne : payload ≠ [] := List.length_pos.mp hpos
  have hread : socket_read { s with inbox := payload ++ rest, reads := [] } payload.length =
      (.data payload, { s with inbox := rest, reads := [] }) := by
    simp only [socket_read]
    exact sock_take_data _ _ [] payload rest rfl hne rfl
  have hp : read_payload (f + 1) { s with inbox := payload ++ rest, reads := [] }
      (varint_bytes payload.length ++ [0]) payload.length 0 = some .overflow := by
    simp only [read_payload, hread, Nat.zero_add, h1, if_true]
  have hn0 : ¬ payload.length ≤ 0 := by omega
  simp only [libp2p_net_multistream_receive, hv', hn0, if_false, hp]


/-- C3 (the code at the failing input): the stream carries the varint of 65536
followed by 65536 bytes.  `receive` does not return 0 after the length prefix:
it asks the transport for 65536 bytes at `&buffer[0]` and the read writes past
the 65535-byte buffer. -/
theorem receive_oversized_overflows (fuel : Nat) :
    libp2p_net_multistream_receive (fuel + 10)
        { inbox := [128, 128, 4] ++ List.replicate 65536 65, reads := [], outbox := [],
          writes := [] } = some .overflow := by
  have hlen : (List.replicate 65536 65).length = 65536 := List.length_replicate _ _
  apply receive_overflow (fuel + 10) _ (List.replicate 65536 65) []
  · rw [hlen]; norm_num [buffer_size]
  · rw [hlen]; norm_num
  · rw [hlen, varint_65536, List.append_nil]
  · rfl
  · omega


/-- Once the input is exhausted every read returns 0 and the second loop goes
round without end. -/
theorem read_payload_at_eof :
    ∀ (fuel : Nat) (s : Sock) (buffer : List Nat) (left already_read : Nat),
      s.inbox = [] → s.reads = [] → 0 < left →
      read_payload fuel s buffer left already_read = none := by
  intro fuel
  induction fuel with
  | zero => intro s buffer left ar _ _ _; simp [read_payload]
  | succ f ih =>
    intro s buffer left ar hin hr hpos
    have hread : socket_read s left = (.eof, s) := by
      cases s
      simp only at hin hr
      subst hin hr
      simp [socket_read, Sock.take]
    simp only [read_payload, hread, hpos, if_true]
    exact ih s buffer left ar hin hr hpos

/-- C4 (the code at the failing inputs): a stream that ends after 50 of the
declared 100 payload bytes makes `receive` loop without end, whatever the fuel
(it never returns 0); and on a stream that ends after a length byte with the
continuation bit, `receive` branches on a byte that no read has stored. -/
theorem receive_premature_eof (fuel : Nat) :
    libp2p_net_multistream_receive fuel
        { inbox := 100 :: List.replicate 50 7, reads := [], outbox := [], writes := [] } = none ∧
    libp2p_net_multistream_receive (fuel + 2)
        { inbox := [128], reads := [], outbox := [], writes := [] } = some .indeterminate := by
  constructor
  · cases fuel with
    | zero => simp [libp2p_net_multistream_receive, read_varint]
    | succ f =>
      have hv := read_varint_run (List.replicate 50 7) 100 (by decide) [] (f + 1)
        { inbox := 100 :: List.replicate 50 7, reads := [], outbox := [], writes := [] } []
        (by simp) rfl (by simp) (by simp) (by simp [buffer_size])
      have hd : decoded_length ([] ++ [] ++ [100, 0]) = 100 := by
        simp [decoded_length, strlen, cstr, varint_decode, varint_scan]
      rw [hd] at hv
      have hv' : read_varint (f + 1)
          { inbox := 100 :: List.replicate 50 7, reads := [], outbox := [], writes := [] } [] 0 =
          some (.done (100, [] ++ [] ++ [100, 0],
            { inbox := List.replicate 50 7, reads := [], outbox := [], writes := [] })) := by
        simpa using hv
      have hr : socket_read
          { inbox := List.replicate 50 7, reads := [], outbox := [], writes := [] } 100 =
          (.data (List.replicate 50 7),
            { inbox := [], reads := [], outbox := [], writes := [] }) := by
        have ht : List.take 100 (List.replicate 50 7) = 7 :: List.replicate 49 7 := by
          rw [List.take_of_length_le (by simp)]; rfl
        have hdr : List.drop 100 (List.replicate 50 7) = [] :=
          List.drop_of_length_le (by simp)
        simp only [socket_read, Sock.take, ht, hdr]
        rfl
      have hp : read_payload (f + 1)
          { inbox := List.replicate 50 7, reads := [], outbox := [], writes := [] }
          ([] ++ [] ++ [100, 0]) 100 0 = none := by
        simp only [read_payload, hr]
        simp [buffer_size, read_payload_at_eof]
      simp only [libp2p_net_multistream_receive, hv']
      rw [if_neg (by decide), hp]
  · simp [libp2p_net_multistream_receive, read_varint, socket_read, Sock.take, buffer_size, store]


/-! ## Facts about the handshake -/

theorem varint_19 : varint_bytes 19 = [19] := varint_bytes_small (by norm_num)

theorem protocolID_length : protocolID.length = 19 := rfl

/-- The handshake frame goes out whole on a transport that accepts writes in full. -/
theorem send_protocolID (s : Sock)
    (hfull : ∀ e ∈ s.writes, ∃ k, e = WriteEvent.short k ∧ 19 ≤ k) :
    libp2p_net_multistream_send s protocolID =
      (20, { s with outbox := s.outbox ++ 19 :: protocolID, writes := s.writes.drop 2 }) := by
  have h := send_accepting s protocolID (by decide) (by rw [protocolID_length, varint_19]; simp)
    (fun e he => by
      obtain ⟨k, hk, h19⟩ := hfull e he
      refine ⟨k, hk, ?_, ?_⟩
      · rw [protocolID_length, varint_19]; simp; omega
      · rw [protocolID_length]; exact h19)
  rw [h, protocolID_length, varint_19]
  rfl

/-- The reply frame as `receive` sees it after the handshake frame was sent. -/
theorem receive_reply (fuel : Nat) (s : Sock) (payload : List Nat)
    (h1 : 1 ≤ payload.length) (h2 : payload.length ≤ 65535)
    (hin : s.inbox = varint_bytes payload.length ++ payload) (hr : s.reads = [])
    (hfuel : 3 ≤ fuel) :
    libp2p_net_multistream_receive fuel s =
      some (.done { ret := (payload.length : Int), results := some payload,
                    results_size := some payload.length,
                    sock := { s with inbox := [] } }) := by
  have h3 := varint_bytes_length_le_three h2
  obtain ⟨reads', hsuf, hrun⟩ := receive_frame fuel s payload [] h1 h2 (by simpa using hin)
    (by simp [hr]) (by simp [hr]) (by omega) (by simp [hr]; omega)
  have hnil : reads' = [] := by
    rw [hr] at hsuf; simpa using hsuf
  rw [hrun, hnil, ← hr]

/-- The function `connect` when the socket connects, the handshake frame goes
out whole and the peer replies with one frame. -/
theorem connect_on_reply (fuel : Nat) (socket : Int) (s : Sock) (payload trail : List Nat)
    (h1 : 1 ≤ payload.length) (h2 : payload.length ≤ 65535)
    (hfull : ∀ e ∈ s.writes, ∃ k, e = WriteEvent.short k ∧ 19 ≤ k)
    (hin : s.inbox = varint_bytes payload.length ++ payload) (hr : s.reads = [])
    (hfuel : 3 ≤ fuel) :
    libp2p_net_multistream_connect fuel socket 0 s trail =
      some (.done (if strstr (payload ++ trail) multistream = true then socket else -1,
        { s with inbox := [], outbox := s.outbox ++ 19 :: protocolID,
                 writes := s.writes.drop 2 })) := by
  have hrecv := receive_reply fuel
    { s with outbox := s.outbox ++ 19 :: protocolID, writes := s.writes.drop 2 } payload
    h1 h2 hin hr hfuel
  have hz : ¬ ((payload.length : Int) = 0) := by
    have : payload.length ≠ 0 := by omega
    exact_mod_cast this
  have hlt : ¬ (payload.length < 1) := by omega
  simp only [libp2p_net_multistream_connect, send_protocolID s hfull, hrecv, hz, hlt]
  by_cases hs : strstr (payload ++ trail) multistream = true
  · simp [hs]
  · have hs' : strstr (payload ++ trail) multistream = false := by simpa using hs
    simp [hs']

/-- The function `negotiate` when the handshake frame goes out whole and the
peer replies with one frame. -/
theorem negotiate_on_reply (fuel : Nat) (s : Sock) (payload trail : List Nat)
    (h1 : 1 ≤ payload.length) (h2 : payload.length ≤ 65535)
    (hfull : ∀ e ∈ s.writes, ∃ k, e = WriteEvent.short k ∧ 19 ≤ k)
    (hin : s.inbox = varint_bytes payload.length ++ payload) (hr : s.reads = [])
    (hfuel : 3 ≤ fuel) :
    libp2p_net_multistream_negotiate fuel s trail =
      some (.done (if strncmp (payload ++ trail) (protocolID ++ [0]) 19 ≠ 0 then 0 else 1,
        { s with inbox := [], outbox := s.outbox ++ 19 :: protocolID,
                 writes := s.writes.drop 2 })) := by
  have hrecv := receive_reply fuel
    { s with outbox := s.outbox ++ 19 :: protocolID, writes := s.writes.drop 2 } payload
    h1 h2 hin hr hfuel
  have hz : ¬ (payload.length = 0) := by omega
  simp only [libp2p_net_multistream_negotiate, send_protocolID s hfull, hrecv, protocolID_length]
  by_cases hs : strncmp (payload ++ trail) (protocolID ++ [0]) 19 ≠ 0
  · simp [hs, hz]
  · simp [hs, hz]


theorem isPrefixOf_append (needle l m : List Nat) (h : needle.isPrefixOf l = true) :
    needle.isPrefixOf (l ++ m) = true := by
  rw [List.isPrefixOf_iff_prefix] at h ⊢
  exact h.trans (List.prefix_append l m)

theorem occurs_append (needle : List Nat) :
    ∀ (l m : List Nat), occurs needle l = true → occurs needle (l ++ m) = true := by
  intro l
  induction l with
  | nil =>
    intro m h
    have hn : needle = [] := by
      simp only [occurs] at h
      cases needle with
      | nil => rfl
      | cons a t => simp [List.isPrefixOf] at h
    subst hn
    cases m <;> simp [occurs, List.isPrefixOf]
  | cons a l ih =>
    intro m h
    simp only [occurs, Bool.or_eq_true] at h
    simp only [List.cons_append, occurs, Bool.or_eq_true]
    rcases h with h | h
    · exact Or.inl (by simpa using isPrefixOf_append needle (a :: l) m h)
    · exact Or.inr (ih m h)

theorem cstr_append_extends (p t : List Nat) : ∃ m, cstr (p ++ t) = cstr p ++ m := by
  induction p with
  | nil => exact ⟨cstr t, by simp [cstr]⟩
  | cons a p ih =>
    by_cases ha : a = 0
    · subst ha; exact ⟨[], by simp [cstr]⟩
    · obtain ⟨m, hm⟩ := ih
      refine ⟨m, ?_⟩
      simp only [cstr] at hm ⊢
      rw [List.cons_append, List.takeWhile_cons, List.takeWhile_cons]
      simp only [ne_eq, ha, not_false_eq_true, decide_True, if_true]
      rw [hm]; rfl

/-- A match inside the payload is found whatever follows the block. -/
theorem strstr_of_payload (payload trail needle : List Nat)
    (h : strstr payload needle = true) : strstr (payload ++ trail) needle = true := by
  obtain ⟨m, hm⟩ := cstr_append_extends payload trail
  simp only [strstr] at h ⊢
  rw [hm]
  exact occurs_append needle _ m h

/-! ## Handshake: what `connect` and `negotiate` accept -/

/-- C8 (the code at the failing inputs): the peer replies with one frame whose
payload is `"/multistream/1.0.1\n"`, which differs from the ProtocolID:
`connect` returns the socket 7 instead of -1, while `negotiate` returns 0 on
that same reply.  `connect` also returns the socket for the 13 bytes
`"?multistream!"`, and for the reply `"hi"` when the memory after the block
happens to hold `"multistream"`, since the block is not 0-terminated. -/
theorem connect_accepts_other_version (fuel : Nat) (trail : List Nat) :
    libp2p_net_multistream_connect (fuel + 3) 7 0
        { inbox := 19 :: [47, 109, 117, 108, 116, 105, 115, 116, 114, 101, 97, 109, 47, 49, 46, 48, 46, 49, 10],
          reads := [], outbox := [], writes := [] } trail =
      some (.done (7, { inbox := [], reads := [], outbox := 19 :: protocolID, writes := [] })) ∧
    libp2p_net_multistream_negotiate (fuel + 3)
        { inbox := 19 :: [47, 109, 117, 108, 116, 105, 115, 116, 114, 101, 97, 109, 47, 49, 46, 48, 46, 49, 10],
          reads := [], outbox := [], writes := [] } trail =
      some (.done (0, { inbox := [], reads := [], outbox := 19 :: protocolID, writes := [] })) ∧
    [47, 109, 117, 108, 116, 105, 115, 116, 114, 101, 97, 109, 47, 49, 46, 48, 46, 49, 10] ≠
      protocolID ∧
    libp2p_net_multistream_connect (fuel + 3) 7 0
        { inbox := 13 :: [63, 109, 117, 108, 116, 105, 115, 116, 114, 101, 97, 109, 33],
          reads := [], outbox := [], writes := [] } trail =
      some (.done (7, { inbox := [], reads := [], outbox := 19 :: protocolID, writes := [] })) ∧
    libp2p_net_multistream_connect (fuel + 3) 7 0
        { inbox := 2 :: [104, 105], reads := [], outbox := [], writes := [] } multistream =
      some (.done (7, { inbox := [], reads := [], outbox := 19 :: protocolID, writes := [] })) := by
  refine ⟨?_, ?_, by decide, ?_, ?_⟩
  · have h := connect_on_reply (fuel + 3) 7
      { inbox := 19 :: [47, 109, 117, 108, 116, 105, 115, 116, 114, 101, 97, 109, 47, 49, 46, 48, 46, 49, 10],
        reads := [], outbox := [], writes := [] }
      [47, 109, 117, 108, 116, 105, 115, 116, 114, 101, 97, 109, 47, 49, 46, 48, 46, 49, 10] trail
      (by decide) (by decide) (by simp) (by simp [varint_19]) rfl (by omega)
    rw [h, if_pos (strstr_of_payload _ trail multistream (by decide))]
    rfl
  · have h := negotiate_on_reply (fuel + 3)
      { inbox := 19 :: [47, 109, 117, 108, 116, 105, 115, 116, 114, 101, 97, 109, 47, 49, 46, 48, 46, 49, 10],
        reads := [], outbox := [], writes := [] }
      [47, 109, 117, 108, 116, 105, 115, 116, 114, 101, 97, 109, 47, 49, 46, 48, 46, 49, 10] trail
      (by decide) (by decide) (by simp) (by simp [varint_19]) rfl (by omega)
    have hs : strncmp ([47, 109, 117, 108, 116, 105, 115, 116, 114, 101, 97, 109, 47, 49, 46, 48, 46, 49, 10] ++ trail)
        (protocolID ++ [0]) 19 ≠ 0 := by
      simp [strncmp, protocolID]
    rw [h, if_pos hs]
    rfl
  · have h := connect_on_reply (fuel + 3) 7
      { inbox := 13 :: [63, 109, 117, 108, 116, 105, 115, 116, 114, 101, 97, 109, 33],
        reads := [], outbox := [], writes := [] }
      [63, 109, 117, 108, 116, 105, 115, 116, 114, 101, 97, 109, 33] trail
      (by decide) (by decide) (by simp) (by simp [varint_bytes_small]) rfl (by omega)
    rw [h, if_pos (strstr_of_payload _ trail multistream (by decide))]
    rfl
  · have h := connect_on_reply (fuel + 3) 7
      { inbox := 2 :: [104, 105], reads := [], outbox := [], writes := [] }
      [104, 105] multistream
      (by decide) (by decide) (by simp) (by simp [varint_bytes_small]) rfl (by omega)
    have hs : strstr ([104, 105] ++ multistream) multistream = true := by decide
    rw [h, if_pos hs]
    rfl

/-- C9 (the code at the failing inputs): the peer replies with the 20-byte
payload `"/multistream/1.0.0\nX"`, longer than the ProtocolID and starting with
it, and `negotiate` returns 1 whatever memory follows the block; and on the
truncated 18-byte line `"/multistream/1.0.0"` it returns 1 when the byte after
the block happens to be a newline. -/
theorem negotiate_accepts_longer_payload (fuel : Nat) (trail : List Nat) :
    libp2p_net_multistream_negotiate (fuel + 3)
        { inbox := 20 :: (protocolID ++ [88]), reads := [], outbox := [], writes := [] } trail =
      some (.done (1, { inbox := [], reads := [], outbox := 19 :: protocolID, writes := [] })) ∧
    libp2p_net_multistream_negotiate (fuel + 3)
        { inbox := 18 :: protocolID.take 18, reads := [], outbox := [], writes := [] } [10] =
      some (.done (1, { inbox := [], reads := [], outbox := 19 :: protocolID, writes := [] })) := by
  constructor
  · have h := negotiate_on_reply (fuel + 3)
      { inbox := 20 :: (protocolID ++ [88]), reads := [], outbox := [], writes := [] }
      (protocolID ++ [88]) trail (by decide) (by decide) (by simp)
      (by simp [protocolID, varint_bytes_small]) rfl (by omega)
    rw [h]
    have hs : strncmp (protocolID ++ [88] ++ trail) (protocolID ++ [0]) 19 = 0 := by
      simp [strncmp, protocolID]
    rw [hs]
    rfl
  · have h := negotiate_on_reply (fuel + 3)
      { inbox := 18 :: protocolID.take 18, reads := [], outbox := [], writes := [] }
      (protocolID.take 18) [10] (by decide) (by decide) (by simp)
      (by simp [protocolID, varint_bytes_small]) rfl (by omega)
    rw [h]
    have hs : strncmp (protocolID.take 18 ++ [10]) (protocolID ++ [0]) 19 = 0 := by decide
    rw [hs]
    rfl

/-- C10: when the transport connects and accepts all writes and the peer's
reply is one frame whose payload is exactly `"/multistream/1.0.0\n"`, `connect`
returns the opened socket descriptor, which is not -1, and `negotiate` returns 1. -/
theorem handshake_succeeds (fuel : Nat) (socket : Int) (s : Sock) (trail : List Nat)
    (hfd : 0 ≤ socket)
    (hfull : ∀ e ∈ s.writes, ∃ k, e = WriteEvent.short k ∧ 19 ≤ k)
    (hin : s.inbox = varint_bytes protocolID.length ++ protocolID) (hr : s.reads = [])
    (hfuel : 3 ≤ fuel) :
    libp2p_net_multistream_connect fuel socket 0 s trail =
        some (.done (socket, { s with inbox := [], outbox := s.outbox ++ 19 :: protocolID,
                                      writes := s.writes.drop 2 })) ∧
      socket ≠ -1 ∧
      libp2p_net_multistream_negotiate fuel s trail =
        some (.done (1, { s with inbox := [], outbox := s.outbox ++ 19 :: protocolID,
                                 writes := s.writes.drop 2 })) := by
  refine ⟨?_, by omega, ?_⟩
  · rw [connect_on_reply fuel socket s protocolID trail (by decide) (by decide) hfull hin hr
      hfuel, if_pos (strstr_of_payload protocolID trail multistream (by decide))]
  · rw [negotiate_on_reply fuel s protocolID trail (by decide) (by decide) hfull hin hr hfuel]
    have hs : strncmp (protocolID ++ trail) (protocolID ++ [0]) 19 = 0 := by
      simp [strncmp, protocolID]
    rw [hs]
    rfl

theorem handshake_succeeds_witness :
    libp2p_net_multistream_connect 3 7 0
          { inbox := 19 :: protocolID, reads := [], outbox := [], writes := [] } [] =
        some (.done (7, { inbox := [], reads := [], outbox := [] ++ 19 :: protocolID,
                          writes := List.drop 2 [] })) ∧
      (7 : Int) ≠ -1 ∧
      libp2p_net_multistream_negotiate 3
          { inbox := 19 :: protocolID, reads := [], outbox := [], writes := [] } [] =
        some (.done (1, { inbox := [], reads := [], outbox := [] ++ 19 :: protocolID,
                          writes := List.drop 2 [] })) :=
  handshake_succeeds 3 7 { inbox := 19 :: protocolID, reads := [], outbox := [], writes := [] } []
    (by decide) (by simp) (by simp [protocolID, varint_bytes_small]) rfl (le_refl 3)


/-! ## Reading leaves the written side of the socket alone -/

theorem socket_read_outbox (s : Sock) (len : Nat) :
    (socket_read s len).2.outbox = s.outbox ∧ (socket_read s len).2.writes = s.writes := by
  unfold socket_read
  split
  · unfold Sock.take; split <;> exact ⟨rfl, rfl⟩
  · unfold Sock.take; split <;> exact ⟨rfl, rfl⟩
  · exact ⟨rfl, rfl⟩
  · exact ⟨rfl, rfl⟩

theorem read_varint_outbox :
    ∀ (fuel : Nat) (s : Sock) (buffer : List Nat) (pos n : Nat) (b : List Nat) (s' : Sock),
      read_varint fuel s buffer pos = some (.done (n, b, s')) →
      s'.outbox = s.outbox ∧ s'.writes = s.writes := by
  intro fuel
  induction fuel with
  | zero => intro s buffer pos n b s' h; simp [read_varint] at h
  | succ f ih =>
    intro s buffer pos n b s' h
    have hso := socket_read_outbox s 1
    rw [read_varint] at h
    rcases hr : socket_read s 1 with ⟨res, s1⟩
    rw [hr] at h hso
    cases res with
    | data d =>
      simp only at h
      split at h
      · simp at h
      · split at h
        · split at h
          · simp at h
          · simp only [Option.some.injEq, Run.done.injEq, Prod.mk.injEq] at h
            obtain ⟨_, _, rfl⟩ := h
            exact hso
        · obtain ⟨h1, h2⟩ := ih _ _ _ _ _ _ h
          exact ⟨h1.trans hso.1, h2.trans hso.2⟩
    | eof => simp at h
    | again => simp at h
    | error => simp at h

theorem read_payload_outbox :
    ∀ (fuel : Nat) (s : Sock) (buffer : List Nat) (left already_read : Nat) (e : LoopExit),
      read_payload fuel s buffer left already_read = some (.done e) →
      (∀ s', e = .ret0 s' → s'.outbox = s.outbox ∧ s'.writes = s.writes) ∧
      (∀ b a s', e = .finished b a s' → s'.outbox = s.outbox ∧ s'.writes = s.writes) := by
  intro fuel
  induction fuel with
  | zero => intro s buffer left ar e h; simp [read_payload] at h
  | succ f ih =>
    intro s buffer left ar e h
    have hso := socket_read_outbox s left
    rw [read_payload] at h
    rcases hr : socket_read s left with ⟨res, s1⟩
    rw [hr] at h hso
    have step : ∀ buffer' left' ar', read_payload f s1 buffer' left' ar' = some (.done e) →
        (∀ s', e = .ret0 s' → s'.outbox = s.outbox ∧ s'.writes = s.writes) ∧
        (∀ b a s', e = .finished b a s' → s'.outbox = s.outbox ∧ s'.writes = s.writes) := by
      intro buffer' left' ar' h'
      obtain ⟨h1, h2⟩ := ih _ _ _ _ _ h'
      exact ⟨fun s' he => ⟨(h1 s' he).1.trans hso.1, (h1 s' he).2.trans hso.2⟩,
        fun b a s' he => ⟨(h2 b a s' he).1.trans hso.1, (h2 b a s' he).2.trans hso.2⟩⟩
    have stop : ∀ b a, e = .finished b a s1 →
        (∀ s', e = .ret0 s' → s'.outbox = s.outbox ∧ s'.writes = s.writes) ∧
        (∀ b a s', e = .finished b a s' → s'.outbox = s.outbox ∧ s'.writes = s.writes) := by
      intro b a he
      subst he
      refine ⟨fun s' h' => by simp at h', fun b' a' s' h' => ?_⟩
      simp only [LoopExit.finished.injEq] at h'
      obtain ⟨_, _, rfl⟩ := h'
      exact hso
    cases res with
    | data d =>
      simp only at h
      split at h
      · simp at h
      · split at h
        · exact step _ _ _ h
        · simp only [Option.some.injEq, Run.done.injEq] at h
          exact stop _ _ h.symm
    | eof =>
      simp only at h
      split at h
      · exact step _ _ _ h
      · simp only [Option.some.injEq, Run.done.injEq] at h
        exact stop _ _ h.symm
    | again =>
      simp only at h
      split at h
      · exact step _ _ _ h
      · simp only [Option.some.injEq, Run.done.injEq] at h
        exact stop _ _ h.symm
    | error =>
      simp only [Option.some.injEq, Run.done.injEq] at h
      subst h
      refine ⟨fun s' h' => ?_, fun b a s' h' => by simp at h'⟩
      simp only [LoopExit.ret0.injEq] at h'
      subst h'
      exact hso

/-- A run of `receive` writes nothing. -/
theorem receive_outbox (fuel : Nat) (s : Sock) (r : Received)
    (h : libp2p_net_multistream_receive fuel s = some (.done r)) :
    r.sock.outbox = s.outbox ∧ r.sock.writes = s.writes := by
  unfold libp2p_net_multistream_receive at h
  split at h
  · simp at h
  · simp at h
  · simp at h
  · rename_i n buffer s1 hv
    have h1 := read_varint_outbox _ _ _ _ _ _ _ hv
    split at h
    · simp only [Option.some.injEq, Run.done.injEq] at h
      subst h; exact h1
    · split at h
      · simp at h
      · simp at h
      · simp at h
      · rename_i s2 hrun
        have h2 := (read_payload_outbox _ _ _ _ _ _ hrun).1 s2 rfl
        simp only [Option.some.injEq, Run.done.injEq] at h
        subst h; exact ⟨h2.1.trans h1.1, h2.2.trans h1.2⟩
      · rename_i buffer' ar s2 hrun
        have h2 := (read_payload_outbox _ _ _ _ _ _ hrun).2 buffer' ar s2 rfl
        split at h
        · simp only [Option.some.injEq, Run.done.injEq] at h
          subst h; exact ⟨h2.1.trans h1.1, h2.2.trans h1.2⟩
        · simp only [Option.some.injEq, Run.done.injEq] at h
          subst h; exact ⟨h2.1.trans h1.1, h2.2.trans h1.2⟩


/-! ## Handshake: the bytes written, and failures of `connect` -/

/-- What `receive` hands to its caller: either 0 with nothing assigned, or a
positive count with a payload of that length. -/
theorem receive_shape (fuel : Nat) (s : Sock) (r : Received)
    (h : libp2p_net_multistream_receive fuel s = some (.done r)) :
    (r.ret = 0 ∧ r.results = none ∧ r.results_size = none) ∨
    (∃ p : List Nat, 1 ≤ p.length ∧ r.ret = (p.length : Int) ∧ r.results = some p ∧
      r.results_size = some p.length) := by
  unfold libp2p_net_multistream_receive at h
  split at h
  · simp at h
  · simp at h
  · simp at h
  · rename_i n buffer s1 hv
    split at h
    · simp only [Option.some.injEq, Run.done.injEq] at h
      subst h; exact Or.inl ⟨rfl, rfl, rfl⟩
    · rename_i hn
      split at h
      · simp at h
      · simp at h
      · simp at h
      · simp only [Option.some.injEq, Run.done.injEq] at h
        subst h; exact Or.inl ⟨rfl, rfl, rfl⟩
      · rename_i buffer' ar s2 hrun
        have hlen := read_payload_buffer_length _ _ _ _ _ _ _ _ (Nat.zero_le _) hrun
        split at h
        · simp only [Option.some.injEq, Run.done.injEq] at h
          subst h; exact Or.inl ⟨rfl, rfl, rfl⟩
        · rename_i hne
          have hne' : ar = n := by simpa using hne
          simp only [Option.some.injEq, Run.done.injEq] at h
          subst h
          subst hne'
          have hl : (buffer'.take ar).length = ar := by
            simp [List.length_take, Nat.min_eq_left hlen]
          refine Or.inr ⟨buffer'.take ar, by rw [hl]; omega, by rw [hl], rfl, by rw [hl]⟩

/-- Whenever the `receive` that follows the handshake frame returns, `connect`
returns, with the socket as that `receive` left it. -/
theorem connect_returns (fuel : Nat) (socket : Int) (s : Sock) (trail : List Nat) (r : Received)
    (hfull : ∀ e ∈ s.writes, ∃ k, e = WriteEvent.short k ∧ 19 ≤ k)
    (hrecv : libp2p_net_multistream_receive fuel
      { s with outbox := s.outbox ++ 19 :: protocolID, writes := s.writes.drop 2 } =
        some (.done r)) :
    ∃ x, libp2p_net_multistream_connect fuel socket 0 s trail = some (.done (x, r.sock)) := by
  have h0 : ¬ ((0 : Int) ≠ 0) := by simp
  have hn : ¬ (((20 : Int) % (2 : Int) ^ 64).toNat ≤ 0) := by decide
  simp only [libp2p_net_multistream_connect, send_protocolID s hfull]
  rw [if_neg h0, if_neg hn]
  simp only [hrecv]
  rcases receive_shape _ _ _ hrecv with ⟨hz, _, _⟩ | ⟨p, hp1, hret, hres, hsz⟩
  · exact ⟨-1, by rw [if_pos hz]⟩
  · have hz : ¬ (r.ret = 0) := by
      rw [hret]
      exact_mod_cast (by omega : p.length ≠ 0)
    rw [if_neg hz, hres, hsz]
    have hlt : ¬ (p.length < 1) := by omega
    simp only [hlt, if_false]
    by_cases hs : strstr (p ++ trail) multistream = false
    · exact ⟨-1, by rw [if_pos hs]⟩
    · exact ⟨socket, by rw [if_neg hs]⟩

/-- Whenever the `receive` that follows the handshake frame returns,
`negotiate` returns, with the socket as that `receive` left it. -/
theorem negotiate_returns (fuel : Nat) (s : Sock) (trail : List Nat) (r : Received)
    (hfull : ∀ e ∈ s.writes, ∃ k, e = WriteEvent.short k ∧ 19 ≤ k)
    (hrecv : libp2p_net_multistream_receive fuel
      { s with outbox := s.outbox ++ 19 :: protocolID, writes := s.writes.drop 2 } =
        some (.done r)) :
    ∃ y, libp2p_net_multistream_negotiate fuel s trail = some (.done (y, r.sock)) := by
  have h20 : ¬ ((20 : Int) = 0) := by decide
  simp only [libp2p_net_multistream_negotiate, send_protocolID s hfull]
  rw [if_neg h20]
  simp only [hrecv]
  rcases receive_shape _ _ _ hrecv with ⟨_, _, hsz⟩ | ⟨p, hp1, _, hres, hsz⟩
  · refine ⟨0, ?_⟩
    rw [hsz]
    simp
  · rw [hsz, hres]
    have hl : ¬ (p.length = 0) := by omega
    simp only [Option.getD_some, hl, if_false]
    by_cases hs : strncmp (p ++ trail) (protocolID ++ [0]) protocolID.length ≠ 0
    · exact ⟨0, by rw [if_pos hs]⟩
    · exact ⟨1, by rw [if_neg hs]⟩

/-- C11: with a transport that accepts writes in full, the handshake of
`connect` (after a successful socket connect) and of `negotiate` writes exactly
one frame, the byte 0x13 followed by the 19 bytes of `"/multistream/1.0.0\n"`,
20 bytes in total, and nothing else.  The `send` at the start puts that frame
on the transport; whenever the `receive` that follows returns, both functions
return and the frame is all that has been written; and when the peer replies
with one frame of 1 to 65535 bytes both functions return, for every fuel from 3
on, with exactly that frame added to what was written before. -/
theorem handshake_wire_bytes (s : Sock)
    (hfull : ∀ e ∈ s.writes, ∃ k, e = WriteEvent.short k ∧ 19 ≤ k) :
    (19 :: protocolID = 0x13 :: ("/multistream/1.0.0\n".toList.map Char.toNat) ∧
      (19 :: protocolID).length = 20 ∧ varint_bytes protocolID.length = [0x13]) ∧
    libp2p_net_multistream_send s protocolID =
      (20, { s with outbox := s.outbox ++ 19 :: protocolID, writes := s.writes.drop 2 }) ∧
    (∀ (fuel : Nat) (socket : Int) (trail : List Nat) (r : Received),
      libp2p_net_multistream_receive fuel
        { s with outbox := s.outbox ++ 19 :: protocolID, writes := s.writes.drop 2 } =
          some (.done r) →
      r.sock.outbox = s.outbox ++ 19 :: protocolID ∧
      (∃ x, libp2p_net_multistream_connect fuel socket 0 s trail = some (.done (x, r.sock))) ∧
      (∃ y, libp2p_net_multistream_negotiate fuel s trail = some (.done (y, r.sock)))) ∧
    (∀ (fuel : Nat) (socket : Int) (trail payload : List Nat),
      1 ≤ payload.length → payload.length ≤ 65535 →
      s.inbox = varint_bytes payload.length ++ payload → s.reads = [] → 3 ≤ fuel →
      (∃ x, libp2p_net_multistream_connect fuel socket 0 s trail =
        some (.done (x, { s with inbox := [], outbox := s.outbox ++ 19 :: protocolID,
                                 writes := s.writes.drop 2 }))) ∧
      (∃ y, libp2p_net_multistream_negotiate fuel s trail =
        some (.done (y, { s with inbox := [], outbox := s.outbox ++ 19 :: protocolID,
                                 writes := s.writes.drop 2 })))) := by
  have hsend := send_protocolID s hfull
  refine ⟨⟨by decide, by decide, by rw [protocolID_length, varint_19]⟩, hsend, ?_, ?_⟩
  · intro fuel socket trail r hrecv
    exact ⟨(receive_outbox _ _ _ hrecv).1, connect_returns fuel socket s trail r hfull hrecv,
      negotiate_returns fuel s trail r hfull hrecv⟩
  · intro fuel socket trail payload h1 h2 hin hr hfuel
    exact ⟨⟨_, connect_on_reply fuel socket s payload trail h1 h2 hfull hin hr hfuel⟩,
      ⟨_, negotiate_on_reply fuel s payload trail h1 h2 hfull hin hr hfuel⟩⟩

theorem handshake_wire_bytes_witness :
    (∃ x, libp2p_net_multistream_connect 3 7 0
        { inbox := 19 :: protocolID, reads := [], outbox := [4, 2],
          writes := [.short 19, .short 19] } [] =
      some (.done (x, { inbox := [], reads := [], outbox := [4, 2] ++ 19 :: protocolID,
                        writes := List.drop 2 [.short 19, .short 19] }))) ∧
    (∃ y, libp2p_net_multistream_negotiate 3
        { inbox := 19 :: protocolID, reads := [], outbox := [4, 2],
          writes := [.short 19, .short 19] } [] =
      some (.done (y, { inbox := [], reads := [], outbox := [4, 2] ++ 19 :: protocolID,
                        writes := List.drop 2 [.short 19, .short 19] }))) :=
  (handshake_wire_bytes
    { inbox := 19 :: protocolID, reads := [], outbox := [4, 2],
      writes := [.short 19, .short 19] }
    (by
      intro e he
      simp only [List.mem_cons, List.mem_singleton, List.not_mem_nil, or_false] at he
      rcases he with rfl | rfl
      · exact ⟨19, rfl, by decide⟩
      · exact ⟨19, rfl, by decide⟩)).2.2.2 3 7 [] protocolID (by decide) (by decide)
    (by simp [protocolID, varint_bytes_small]) rfl (le_refl 3)

/-- The function `connect` once the result of its `send` is known to pass the
check `num_bytes <= 0` and the peer's reply is one frame. -/
theorem connect_after_send (fuel : Nat) (socket : Int) (s s1 : Sock) (n : Int)
    (payload trail : List Nat)
    (hsend : libp2p_net_multistream_send s protocolID = (n, s1))
    (hn : ¬ ((n % (2 : Int) ^ 64).toNat ≤ 0))
    (h1 : 1 ≤ payload.length) (h2 : payload.length ≤ 65535)
    (hin : s1.inbox = varint_bytes payload.length ++ payload) (hr : s1.reads = [])
    (hfuel : 3 ≤ fuel) :
    libp2p_net_multistream_connect fuel socket 0 s trail =
      some (.done (if strstr (payload ++ trail) multistream = true then socket else -1,
        { s1 with inbox := [] })) := by
  have hrecv := receive_reply fuel s1 payload h1 h2 hin hr hfuel
  have h0 : ¬ ((0 : Int) ≠ 0) := by simp
  have hz : ¬ ((payload.length : Int) = 0) := by
    have : payload.length ≠ 0 := by omega
    exact_mod_cast this
  have hlt : ¬ (payload.length < 1) := by omega
  simp only [libp2p_net_multistream_connect, hsend]
  rw [if_neg h0, if_neg hn]
  simp only [hrecv, hz, hlt, if_false]
  by_cases hs : strstr (payload ++ trail) multistream = true
  · simp [hs]
  · have hs' : strstr (payload ++ trail) multistream = false := by simpa using hs
    simp [hs']

/-- C12 (the code at the failing inputs): both calls of `socket_write` fail
with -1, so nothing is written and `send` returns -2; stored in the `size_t`
`num_bytes` this passes the check `num_bytes <= 0`, and with the peer's
handshake frame on the input `connect` returns the socket 7 instead of -1.
The same happens when only the write of the varint fails (`send` returns 18). -/
theorem connect_ignores_write_errors (fuel : Nat) (trail : List Nat) :
    (libp2p_net_multistream_send
        { inbox := 19 :: protocolID, reads := [], outbox := [],
          writes := [.error 0, .error 0] } protocolID).1 = -2 ∧
    libp2p_net_multistream_connect (fuel + 3) 7 0
        { inbox := 19 :: protocolID, reads := [], outbox := [],
          writes := [.error 0, .error 0] } trail =
      some (.done (7, { inbox := [], reads := [], outbox := [], writes := [] })) ∧
    libp2p_net_multistream_connect (fuel + 3) 7 0
        { inbox := 19 :: protocolID, reads := [], outbox := [], writes := [.error 0] } trail =
      some (.done (7, { inbox := [], reads := [], outbox := protocolID, writes := [] })) := by
  have hs2 : libp2p_net_multistream_send
      { inbox := 19 :: protocolID, reads := [], outbox := [], writes := [.error 0, .error 0] }
      protocolID =
      (-2, { inbox := 19 :: protocolID, reads := [], outbox := [], writes := [] }) := by
    rw [send_unfold _ protocolID (by decide) (by rw [protocolID_length]; norm_num)]
    simp [socket_write, c_int]
  have hs1 : libp2p_net_multistream_send
      { inbox := 19 :: protocolID, reads := [], outbox := [], writes := [.error 0] }
      protocolID =
      (18, { inbox := 19 :: protocolID, reads := [], outbox := protocolID, writes := [] }) := by
    rw [send_unfold _ protocolID (by decide) (by rw [protocolID_length]; norm_num)]
    simp [socket_write, protocolID, c_int]
  have hfound : strstr (protocolID ++ trail) multistream = true :=
    strstr_of_payload protocolID trail multistream (by decide)
  refine ⟨by rw [hs2], ?_, ?_⟩
  · rw [connect_after_send (fuel + 3) 7 _ _ (-2) protocolID trail hs2 (by decide) (by decide)
      (by decide) (by simp [protocolID, varint_bytes_small]) rfl (by omega), if_pos hfound]
  · rw [connect_after_send (fuel + 3) 7 _ _ 18 protocolID trail hs1 (by decide) (by decide)
      (by decide) (by simp [protocolID, varint_bytes_small]) rfl (by omega), if_pos hfound]

/-! ## The descriptor after a failed `connect` -/

/-- The run of `connect` on the process state is the run of `connect` on the
socket, with the descriptor from `socket_open4` added to the open ones and
never taken out again. -/
theorem connect_process_agrees (fuel : Nat) (fd connected : Int) (p : Process)
    (trail : List Nat) (hfd : 0 ≤ fd) :
    libp2p_net_multistream_connect_process fuel fd connected p trail =
      match libp2p_net_multistream_connect fuel fd connected p.sock trail with
      | none => none
      | some .overflow => some .overflow
      | some .indeterminate => some .indeterminate
      | some (.done (r, s')) =>
        some (.done (r, { open_fds := fd :: p.open_fds, sock := s' })) := by
  simp only [libp2p_net_multistream_connect_process, libp2p_net_multistream_connect,
    socket_open4, socket_connect4, hfd, if_true]
  by_cases hc : connected = 0
  · by_cases hn : (libp2p_net_multistream_send p.sock protocolID).1 % 18446744073709551616 ≤ 0
    · simp [hc, hn]
    · rcases hrecv : libp2p_net_multistream_receive fuel
          (libp2p_net_multistream_send p.sock protocolID).2 with _ | (r | _ | _)
      · simp [hc, hn, hrecv]
      · by_cases hz : r.ret = 0
        · simp [hc, hn, hrecv, hz]
        · rcases hsz : r.results_size with _ | sz
          · simp [hc, hn, hrecv, hz, hsz]
          · rcases hres : r.results with _ | res
            · simp [hc, hn, hrecv, hz, hsz, hres]
            · by_cases h1 : sz < 1
              · simp [hc, hn, hrecv, hz, hsz, hres, h1]
              · by_cases hs : strstr (res ++ trail) multistream = false
                · simp [hc, hn, hrecv, hz, hsz, hres, h1, hs]
                · simp [hc, hn, hrecv, hz, hsz, hres, h1, hs]
      · simp [hc, hn, hrecv]
      · simp [hc, hn, hrecv]
  · simp [hc]

/-- C16 (as stated, refuted): `socket_open4` hands out the descriptor 7.  When
`socket_connect4` fails, when the first write of `send` returns 0, when
`receive` fails and when the reply does not match, `connect` returns -1 and 7
is still among the open descriptors; only a `close` would take it out. -/
theorem connect_failure_leaves_descriptor_open :
    libp2p_net_multistream_connect_process 3 7 1
        { open_fds := [], sock := { inbox := [], reads := [], outbox := [], writes := [] } } [] =
      some (.done (-1, { open_fds := [7],
                         sock := { inbox := [], reads := [], outbox := [], writes := [] } })) ∧
    libp2p_net_multistream_connect_process 3 7 0
        { open_fds := [],
          sock := { inbox := [], reads := [], outbox := [],
                    writes := [.short 0, .short 0] } } [] =
      some (.done (-1, { open_fds := [7],
                         sock := { inbox := [], reads := [], outbox := [],
                                   writes := [.short 0] } })) ∧
    libp2p_net_multistream_connect_process 3 7 0
        { open_fds := [], sock := { inbox := [0], reads := [], outbox := [], writes := [] } } [] =
      some (.done (-1, { open_fds := [7],
                         sock := { inbox := [], reads := [], outbox := 19 :: protocolID,
                                   writes := [] } })) ∧
    libp2p_net_multistream_connect_process 3 7 0
        { open_fds := [],
          sock := { inbox := 4 :: [104, 105, 0, 33], reads := [], outbox := [],
                    writes := [] } } [] =
      some (.done (-1, { open_fds := [7],
                         sock := { inbox := [], reads := [], outbox := 19 :: protocolID,
                                   writes := [] } })) ∧
    (7 : Int) ∈ [(7 : Int)] ∧
    (socket_close { open_fds := [7],
                    sock := { inbox := [], reads := [], outbox := [], writes := [] } } 7).open_fds
      = [] := by
  have hv : varint_bytes 19 = [19] := varint_bytes_small (by norm_num)
  refine ⟨?_, ?_, ?_, ?_, by decide, by decide⟩
  · rw [connect_process_agrees 3 7 1 _ [] (by decide)]
    have h : libp2p_net_multistream_connect 3 7 1
        { inbox := [], reads := [], outbox := [], writes := [] } [] =
        some (.done (-1, { inbox := [], reads := [], outbox := [], writes := [] })) := by
      decide
    simp only [h]
  · rw [connect_process_agrees 3 7 0 _ [] (by decide)]
    have hsend : libp2p_net_multistream_send
        { inbox := [], reads := [], outbox := [], writes := [.short 0, .short 0] } protocolID =
        (0, { inbox := [], reads := [], outbox := [], writes := [.short 0] }) := by
      rw [send_on_counts _ protocolID 0 0 [] (by decide) (by simp [protocolID, hv]) rfl]
      simp
    have h : libp2p_net_multistream_connect 3 7 0
        { inbox := [], reads := [], outbox := [], writes := [.short 0, .short 0] } [] =
        some (.done (-1, { inbox := [], reads := [], outbox := [], writes := [.short 0] })) := by
      simp [libp2p_net_multistream_connect, hsend]
    simp only [h]
  · rw [connect_process_agrees 3 7 0 _ [] (by decide)]
    have hsend := send_protocolID { inbox := [0], reads := [], outbox := [], writes := [] }
      (by simp)
    have hrecv : libp2p_net_multistream_receive 3
        { inbox := [0], reads := [], outbox := 19 :: protocolID, writes := [] } =
        some (.done { ret := 0, results := none, results_size := none,
                      sock := { inbox := [], reads := [], outbox := 19 :: protocolID,
                                writes := [] } }) := by
      decide
    have h : libp2p_net_multistream_connect 3 7 0
        { inbox := [0], reads := [], outbox := [], writes := [] } [] =
        some (.done (-1, { inbox := [], reads := [], outbox := 19 :: protocolID,
                           writes := [] })) := by
      simp only [libp2p_net_multistream_connect, hsend]
      simp [hrecv]
    simp only [h]
  · rw [connect_process_agrees 3 7 0 _ [] (by decide)]
    have h := connect_on_reply 3 7
      { inbox := 4 :: [104, 105, 0, 33], reads := [], outbox := [], writes := [] }
      [104, 105, 0, 33] [] (by decide) (by decide) (by simp) (by simp [varint_bytes_small]) rfl
      (le_refl 3)
    have hs : ¬ (strstr ([104, 105, 0, 33] ++ []) multistream = true) := by decide
    rw [if_neg hs] at h
    simp only [h]
    rfl

/-- C16 (amended): `connect` never closes the socket it opened with
`socket_open4`.  When `socket_connect4` fails it returns -1 with that
descriptor open; whenever the handshake on the socket returns a value, -1 for a
send failure, a receive failure or a protocol mismatch, or the descriptor on
success, `connect` returns that value with the descriptor still among the open
ones; and the open descriptors at any return are those from before plus the
new one. -/
theorem connect_never_closes (fuel : Nat) (fd connected : Int) (p : Process)
    (trail : List Nat) (hopen : 0 ≤ fd) :
    (connected ≠ 0 →
      libp2p_net_multistream_connect_process fuel fd connected p trail =
        some (.done (-1, { p with open_fds := fd :: p.open_fds }))) ∧
    (∀ (r : Int) (s' : Sock),
      libp2p_net_multistream_connect fuel fd connected p.sock trail = some (.done (r, s')) →
      libp2p_net_multistream_connect_process fuel fd connected p trail =
        some (.done (r, { open_fds := fd :: p.open_fds, sock := s' }))) ∧
    (∀ (r : Int) (p' : Process),
      libp2p_net_multistream_connect_process fuel fd connected p trail = some (.done (r, p')) →
      fd ∈ p'.open_fds ∧ p'.open_fds = fd :: p.open_fds) := by
  have hagree := connect_process_agrees fuel fd connected p trail hopen
  refine ⟨?_, ?_, ?_⟩
  · intro hc
    simp [libp2p_net_multistream_connect_process, socket_open4, socket_connect4, hopen, hc]
  · intro r s' h
    rw [hagree, h]
  · intro r p' h
    rw [hagree] at h
    split at h
    · simp at h
    · simp at h
    · simp at h
    · simp only [Option.some.injEq, Run.done.injEq, Prod.mk.injEq] at h
      rw [← h.2]
      exact ⟨List.mem_cons_self _ _, rfl⟩

theorem connect_never_closes_witness :
    libp2p_net_multistream_connect_process 3 7 1
        { open_fds := [4], sock := { inbox := [], reads := [], outbox := [], writes := [] } }
        [] =
      some (.done (-1, { open_fds := 7 :: [4],
                         sock := { inbox := [], reads := [], outbox := [], writes := [] } })) :=
  (connect_never_closes 3 7 1
    { open_fds := [4], sock := { inbox := [], reads := [], outbox := [], writes := [] } } []
    (by decide)).1 (by decide)

/-! ## Message dispatch -/

/-- The function `handle_message` on a stream that starts with one whole frame:
what it returns for each of the three ways the decode can go. -/
theorem handle_message_on_frame (codec : MessageCodec) (fuel : Nat) (s : Sock)
    (payload rest : List Nat) (h1 : 1 ≤ payload.length) (h2 : payload.length ≤ 65535)
    (hin : s.inbox = varint_bytes payload.length ++ (payload ++ rest))
    (hpre : ∀ e ∈ s.reads.take (varint_bytes payload.length).length,
      ∃ k, 1 ≤ k ∧ e = ReadEvent.deliver k)
    (hsched : ∀ e ∈ s.reads.drop (varint_bytes payload.length).length,
      e = ReadEvent.again ∨ ∃ k, 1 ≤ k ∧ e = ReadEvent.deliver k)
    (hf1 : (varint_bytes payload.length).length ≤ fuel)
    (hf2 : (s.reads.drop (varint_bytes payload.length).length).length + 1 ≤ fuel) :
    ∃ reads', reads' <:+ s.reads.drop (varint_bytes payload.length).length ∧
      (codec.decode payload = none →
        libp2p_net_multistream_handle_message codec fuel s =
          some (.done (0, { s with inbox := rest, reads := reads' }))) ∧
      (∀ msg, codec.decode payload = some msg →
        msg.message_type ≠ codec.MESSAGE_TYPE_PING →
        libp2p_net_multistream_handle_message codec fuel s =
          some (.done (1, { s with inbox := rest, reads := reads' }))) ∧
      (∀ msg, codec.decode payload = some msg →
        msg.message_type = codec.MESSAGE_TYPE_PING →
        libp2p_net_multistream_handle_message codec fuel s =
          some (.done (1, (libp2p_net_multistream_send
            { s with inbox := rest, reads := reads' } (codec.encode msg)).2))) := by
  obtain ⟨reads', hsuf, hrun⟩ :=
    receive_frame fuel s payload rest h1 h2 hin hpre hsched hf1 hf2
  refine ⟨reads', hsuf, ?_, ?_, ?_⟩
  · intro hd
    simp only [libp2p_net_multistream_handle_message, hrun, Option.getD_some, List.take_length,
      hd]
  · intro msg hd hk
    simp only [libp2p_net_multistream_handle_message, hrun, Option.getD_some, List.take_length,
      hd, hk, if_false]
  · intro msg hd hk
    simp only [libp2p_net_multistream_handle_message, hrun, Option.getD_some, List.take_length,
      hd, hk, if_true, libp2p_net_multistream_handle_ping]

/-- C13: ping echo.  For a received frame whose payload the codec decodes to a
message of kind `MESSAGE_TYPE_PING`, `handle_message` consumes that frame, makes
one `send` of the codec's encoding of that same message and returns 1; when the
encoding is not empty and the transport accepts the writes in full, what is
written is exactly one frame, `varint(len) ++ encode msg`; and a codec whose
decode inverts encode decodes the echoed payload to that message. -/
theorem handle_message_ping_echo (codec : MessageCodec) (fuel : Nat) (s : Sock)
    (payload rest : List Nat) (msg : Libp2pMessage)
    (h1 : 1 ≤ payload.length) (h2 : payload.length ≤ 65535)
    (hin : s.inbox = varint_bytes payload.length ++ (payload ++ rest))
    (hpre : ∀ e ∈ s.reads.take (varint_bytes payload.length).length,
      ∃ k, 1 ≤ k ∧ e = ReadEvent.deliver k)
    (hsched : ∀ e ∈ s.reads.drop (varint_bytes payload.length).length,
      e = ReadEvent.again ∨ ∃ k, 1 ≤ k ∧ e = ReadEvent.deliver k)
    (hf1 : (varint_bytes payload.length).length ≤ fuel)
    (hf2 : (s.reads.drop (varint_bytes payload.length).length).length + 1 ≤ fuel)
    (hdec : codec.decode payload = some msg)
    (hping : msg.message_type = codec.MESSAGE_TYPE_PING) :
    ∃ reads', reads' <:+ s.reads.drop (varint_bytes payload.length).length ∧
      libp2p_net_multistream_handle_message codec fuel s =
        some (.done (1, (libp2p_net_multistream_send
          { s with inbox := rest, reads := reads' } (codec.encode msg)).2)) ∧
      (codec.encode msg ≠ [] → (codec.encode msg).length < 2 ^ 64 →
        (∀ e ∈ s.writes, ∃ k, e = WriteEvent.short k ∧
          (varint_bytes (codec.encode msg).length).length ≤ k ∧
          (codec.encode msg).length ≤ k) →
        libp2p_net_multistream_handle_message codec fuel s =
          some (.done (1, { s with
            inbox := rest, reads := reads',
            outbox := s.outbox ++ (varint_bytes (codec.encode msg).length ++ codec.encode msg),
            writes := s.writes.drop 2 }))) ∧
      ((∀ m, codec.decode (codec.encode m) = some m) →
        codec.decode (codec.encode msg) = some msg) := by
  obtain ⟨reads', hsuf, _, _, hp⟩ :=
    handle_message_on_frame codec fuel s payload rest h1 h2 hin hpre hsched hf1 hf2
  refine ⟨reads', hsuf, hp msg hdec hping, ?_, fun hinv => hinv msg⟩
  intro hne hsz hfull
  rw [hp msg hdec hping, send_accepting_state { s with inbox := rest, reads := reads' }
    (codec.encode msg) hne hsz hfull]

theorem handle_message_ping_echo_witness :
    ∃ reads',
      libp2p_net_multistream_handle_message
        { MESSAGE_TYPE_PING := 5, encode := fun m => m.message_type :: m.body,
          decode := fun b => if b.headD 9 ≤ 5 then some ⟨b.headD 9, b.tail⟩ else none }
        3 { inbox := [2, 5, 9, 77], reads := [], outbox := [], writes := [] } =
      some (.done (1, { inbox := [77], reads := reads', outbox := [2, 5, 9], writes := [] })) := by
  obtain ⟨reads', _, _, h, _⟩ := handle_message_ping_echo
    { MESSAGE_TYPE_PING := 5, encode := fun m => m.message_type :: m.body,
          decode := fun b => if b.headD 9 ≤ 5 then some ⟨b.headD 9, b.tail⟩ else none }
    3 { inbox := [2, 5, 9, 77], reads := [], outbox := [], writes := [] } [5, 9] [77] ⟨5, [9]⟩
    (by decide) (by decide) (by simp [varint_bytes_small]) (by simp) (by simp)
    (by simp [varint_bytes_small]) (by simp) (by decide) (by decide)
  exact ⟨reads', by simpa [varint_bytes_small] using h (by simp) (by simp) (by simp)⟩

/-- C14: unknown kind.  For a received frame that decodes to a message whose
kind is not `MESSAGE_TYPE_PING`, `handle_message` returns 1 and writes nothing:
the socket is as before except that this one frame has been consumed. -/
theorem handle_message_unknown_kind (codec : MessageCodec) (fuel : Nat) (s : Sock)
    (payload rest : List Nat) (msg : Libp2pMessage)
    (h1 : 1 ≤ payload.length) (h2 : payload.length ≤ 65535)
    (hin : s.inbox = varint_bytes payload.length ++ (payload ++ rest))
    (hpre : ∀ e ∈ s.reads.take (varint_bytes payload.length).length,
      ∃ k, 1 ≤ k ∧ e = ReadEvent.deliver k)
    (hsched : ∀ e ∈ s.reads.drop (varint_bytes payload.length).length,
      e = ReadEvent.again ∨ ∃ k, 1 ≤ k ∧ e = ReadEvent.deliver k)
    (hf1 : (varint_bytes payload.length).length ≤ fuel)
    (hf2 : (s.reads.drop (varint_bytes payload.length).length).length + 1 ≤ fuel)
    (hdec : codec.decode payload = some msg)
    (hkind : msg.message_type ≠ codec.MESSAGE_TYPE_PING) :
    ∃ reads', reads' <:+ s.reads.drop (varint_bytes payload.length).length ∧
      libp2p_net_multistream_handle_message codec fuel s =
        some (.done (1, { s with inbox := rest, reads := reads' })) := by
  obtain ⟨reads', hsuf, _, hu, _⟩ :=
    handle_message_on_frame codec fuel s payload rest h1 h2 hin hpre hsched hf1 hf2
  exact ⟨reads', hsuf, hu msg hdec hkind⟩

theorem handle_message_unknown_kind_witness :
    ∃ reads',
      libp2p_net_multistream_handle_message
        { MESSAGE_TYPE_PING := 5, encode := fun m => m.message_type :: m.body,
          decode := fun b => if b.headD 9 ≤ 5 then some ⟨b.headD 9, b.tail⟩ else none }
        3 { inbox := [2, 4, 9, 77], reads := [], outbox := [], writes := [] } =
      some (.done (1, { inbox := [77], reads := reads', outbox := [], writes := [] })) := by
  obtain ⟨reads', _, h⟩ := handle_message_unknown_kind
    { MESSAGE_TYPE_PING := 5, encode := fun m => m.message_type :: m.body,
          decode := fun b => if b.headD 9 ≤ 5 then some ⟨b.headD 9, b.tail⟩ else none }
    3 { inbox := [2, 4, 9, 77], reads := [], outbox := [], writes := [] } [4, 9] [77] ⟨4, [9]⟩
    (by decide) (by decide) (by simp [varint_bytes_small]) (by simp) (by simp)
    (by simp [varint_bytes_small]) (by simp) (by decide) (by decide)
  exact ⟨reads', h⟩

/-- C15: decode failure.  For a received frame whose payload the codec fails to
decode, `handle_message` returns 0; no handler runs and nothing is written, and
the socket stays as `receive` left it, with only that frame consumed. -/
theorem handle_message_decode_failure (codec : MessageCodec) (fuel : Nat) (s : Sock)
    (payload rest : List Nat)
    (h1 : 1 ≤ payload.length) (h2 : payload.length ≤ 65535)
    (hin : s.inbox = varint_bytes payload.length ++ (payload ++ rest))
    (hpre : ∀ e ∈ s.reads.take (varint_bytes payload.length).length,
      ∃ k, 1 ≤ k ∧ e = ReadEvent.deliver k)
    (hsched : ∀ e ∈ s.reads.drop (varint_bytes payload.length).length,
      e = ReadEvent.again ∨ ∃ k, 1 ≤ k ∧ e = ReadEvent.deliver k)
    (hf1 : (varint_bytes payload.length).length ≤ fuel)
    (hf2 : (s.reads.drop (varint_bytes payload.length).length).length + 1 ≤ fuel)
    (hdec : codec.decode payload = none) :
    ∃ reads', reads' <:+ s.reads.drop (varint_bytes payload.length).length ∧
      libp2p_net_multistream_handle_message codec fuel s =
        some (.done (0, { s with inbox := rest, reads := reads' })) := by
  obtain ⟨reads', hsuf, hn, _, _⟩ :=
    handle_message_on_frame codec fuel s payload rest h1 h2 hin hpre hsched hf1 hf2
  exact ⟨reads', hsuf, hn hdec⟩

theorem handle_message_decode_failure_witness :
    ∃ reads',
      libp2p_net_multistream_handle_message
        { MESSAGE_TYPE_PING := 5, encode := fun m => m.message_type :: m.body,
          decode := fun b => if b.headD 9 ≤ 5 then some ⟨b.headD 9, b.tail⟩ else none }
        3 { inbox := [2, 8, 9, 77], reads := [], outbox := [], writes := [] } =
      some (.done (0, { inbox := [77], reads := reads', outbox := [], writes := [] })) := by
  obtain ⟨reads', _, h⟩ := handle_message_decode_failure
    { MESSAGE_TYPE_PING := 5, encode := fun m => m.message_type :: m.body,
          decode := fun b => if b.headD 9 ≤ 5 then some ⟨b.headD 9, b.tail⟩ else none }
    3 { inbox := [2, 8, 9, 77], reads := [], outbox := [], writes := [] } [8, 9] [77]
    (by decide) (by decide) (by simp [varint_bytes_small]) (by simp) (by simp)
    (by simp [varint_bytes_small]) (by simp) (by decide)
  exact ⟨reads', h⟩


/-! ## `receive`: frame boundaries, failed reads and the empty frame -/

/-- C17: frame boundaries.  Two payloads of length 1 to 65535 are sent back to
back over a transport that accepts the writes; on a stream that delivers the
bytes written, the first `receive` returns the first payload and leaves exactly
the second frame on the input, and the next `receive` returns the second
payload and leaves nothing. -/
theorem receive_frame_boundaries (a b : Sock) (p1 p2 : List Nat)
    (h11 : 1 ≤ p1.length) (h12 : p1.length ≤ 65535)
    (h21 : 1 ≤ p2.length) (h22 : p2.length ≤ 65535)
    (hfull : ∀ e ∈ a.writes, ∃ k, e = WriteEvent.short k ∧ 3 ≤ k ∧ p1.length ≤ k ∧
      p2.length ≤ k)
    (ha : a.outbox = [])
    (hb : b.inbox = (libp2p_net_multistream_send
      (libp2p_net_multistream_send a p1).2 p2).2.outbox)
    (hr : b.reads = []) (fuel : Nat) (hfuel : 3 ≤ fuel) :
    libp2p_net_multistream_receive fuel b =
      some (.done { ret := (p1.length : Int), results := some p1,
                    results_size := some p1.length,
                    sock := { b with inbox := varint_bytes p2.length ++ p2 } }) ∧
    libp2p_net_multistream_receive fuel { b with inbox := varint_bytes p2.length ++ p2 } =
      some (.done { ret := (p2.length : Int), results := some p2,
                    results_size := some p2.length,
                    sock := { b with inbox := [] } }) := by
  have hlt : ∀ n : Nat, n ≤ 65535 → n < 2 ^ 64 := fun n hn => by
    have : (65535 : Nat) < 2 ^ 64 := by norm_num
    omega
  have hv1 := varint_bytes_length_le_three h12
  have hv2 := varint_bytes_length_le_three h22
  have hs1 := send_accepting_state a p1 (List.length_pos.mp h11) (hlt _ h12) (fun e he => by
    obtain ⟨k, hk, h3, hp1, _⟩ := hfull e he
    exact ⟨k, hk, by omega, hp1⟩)
  have hs2 := send_accepting_state (libp2p_net_multistream_send a p1).2 p2 (List.length_pos.mp h21)
    (hlt _ h22) (fun e he => by
      rw [hs1] at he
      obtain ⟨k, hk, h3, _, hp2⟩ := hfull e (List.mem_of_mem_drop he)
      exact ⟨k, hk, by omega, hp2⟩)
  have hin : b.inbox = varint_bytes p1.length ++ (p1 ++ (varint_bytes p2.length ++ p2)) := by
    rw [hb, hs2, hs1]
    simp [ha]
  obtain ⟨reads', hsuf, hrun⟩ := receive_frame fuel b p1 (varint_bytes p2.length ++ p2) h11 h12
    hin (by simp [hr]) (by simp [hr]) (by omega) (by simp [hr]; omega)
  have hnil : reads' = [] := by
    rw [hr] at hsuf; simpa using hsuf
  constructor
  · rw [hrun, hnil, ← hr]
  · exact receive_reply fuel { b with inbox := varint_bytes p2.length ++ p2 } p2 h21 h22 rfl hr
      hfuel

theorem receive_frame_boundaries_witness :
    libp2p_net_multistream_receive 3
        { inbox := [2, 1, 2, 1, 3], reads := [], outbox := [], writes := [] } =
      some (.done { ret := (([1, 2] : List Nat).length : Int), results := some [1, 2],
                    results_size := some ([1, 2] : List Nat).length,
                    sock := { inbox := varint_bytes ([3] : List Nat).length ++ [3], reads := [],
                              outbox := [], writes := [] } }) ∧
    libp2p_net_multistream_receive 3
        { inbox := varint_bytes ([3] : List Nat).length ++ [3], reads := [], outbox := [],
          writes := [] } =
      some (.done { ret := (([3] : List Nat).length : Int), results := some [3],
                    results_size := some ([3] : List Nat).length,
                    sock := { inbox := [], reads := [], outbox := [], writes := [] } }) :=
  receive_frame_boundaries { inbox := [], reads := [], outbox := [], writes := [] }
    { inbox := [2, 1, 2, 1, 3], reads := [], outbox := [], writes := [] } [1, 2] [3]
    (by decide) (by decide) (by decide) (by decide) (by simp) rfl
    (by simp [libp2p_net_multistream_send, varint_encode, varint_bytes_small, socket_write, c_int])
    rfl 3 (le_refl 3)

/-- C18 (the code at the failing inputs): the read of the payload fails, so
`receive` returns 0 and leaves `results` NULL with `results_size` 0; the result
is not looked at and the empty input goes to the decoder.  With a codec that
decodes the empty input to a message with every field at its default,
`handle_message` returns 1 instead of 0; with a codec that decodes it to a ping,
the ping handler runs and a frame is written. -/
theorem handle_message_after_failed_read (fuel : Nat) :
    libp2p_net_multistream_receive (fuel + 2)
        { inbox := [1, 9], reads := [.deliver 1, .error], outbox := [], writes := [] } =
      some (.done { ret := 0, results := none, results_size := none,
                    sock := { inbox := [9], reads := [], outbox := [], writes := [] } }) ∧
    libp2p_net_multistream_handle_message
        { MESSAGE_TYPE_PING := 5, encode := fun m => m.message_type :: m.body,
          decode := fun b => some ⟨b.headD 0, b.tail⟩ }
        (fuel + 2)
        { inbox := [1, 9], reads := [.deliver 1, .error], outbox := [], writes := [] } =
      some (.done (1, { inbox := [9], reads := [], outbox := [], writes := [] })) ∧
    libp2p_net_multistream_handle_message
        { MESSAGE_TYPE_PING := 5, encode := fun m => m.message_type :: m.body,
          decode := fun b => some ⟨b.headD 5, b.tail⟩ }
        (fuel + 2)
        { inbox := [1, 9], reads := [.deliver 1, .error], outbox := [], writes := [] } =
      some (.done (1, { inbox := [9], reads := [], outbox := [1, 5], writes := [] })) := by
  have hrecv : libp2p_net_multistream_receive (fuel + 2)
      { inbox := [1, 9], reads := [.deliver 1, .error], outbox := [], writes := [] } =
      some (.done { ret := 0, results := none, results_size := none,
                    sock := { inbox := [9], reads := [], outbox := [], writes := [] } }) := by
    simp [libp2p_net_multistream_receive, read_varint, read_payload, socket_read, Sock.take,
      buffer_size, store, decoded_length, strlen, cstr, varint_decode, varint_scan]
  refine ⟨hrecv, ?_, ?_⟩
  · simp [libp2p_net_multistream_handle_message, hrecv]
  · have hv : varint_bytes 1 = [1] := varint_bytes_small (by norm_num)
    simp [libp2p_net_multistream_handle_message, hrecv, libp2p_net_multistream_handle_ping,
      libp2p_net_multistream_send, varint_encode, hv, socket_write, c_int]

/-- C19 (as stated, refuted): on the stream that holds the single length byte
0x00 `receive` returns 0 and assigns neither `results` nor `results_size`, and
that is also what it returns when a read of a payload fails with an error. -/
theorem receive_empty_frame_is_failure :
    libp2p_net_multistream_receive 2
        { inbox := [0], reads := [], outbox := [], writes := [] } =
      some (.done { ret := 0, results := none, results_size := none,
                    sock := { inbox := [], reads := [], outbox := [], writes := [] } }) ∧
    libp2p_net_multistream_receive 2
        { inbox := [1], reads := [.deliver 1, .error], outbox := [], writes := [] } =
      some (.done { ret := 0, results := none, results_size := none,
                    sock := { inbox := [], reads := [], outbox := [], writes := [] } }) := by
  constructor <;> decide

/-- C19 (amended): for a stream whose next frame is the single length byte 0x00,
`receive` consumes that byte and no payload byte and returns 0 without
assigning `results` or `results_size`, the outcome it also gives on failure. -/
theorem receive_empty_frame (fuel : Nat) (s : Sock) (rest : List Nat)
    (hin : s.inbox = 0 :: rest)
    (hev : ∀ e ∈ s.reads.take 1, ∃ k, 1 ≤ k ∧ e = ReadEvent.deliver k)
    (hfuel : 1 ≤ fuel) :
    libp2p_net_multistream_receive fuel s =
      some (.done { ret := 0, results := none, results_size := none,
                    sock := { s with inbox := rest, reads := s.reads.tail } }) := by
  have hv := read_varint_run rest 0 (by decide) [] fuel s [] (by simp) (by simpa using hin)
    (by simpa using hev) (by simpa using hfuel) (by simp [buffer_size])
  have hd : decoded_length ([] ++ [] ++ [0, 0]) = 0 := by
    simp [decoded_length, strlen, cstr, varint_decode, varint_scan]
  rw [hd] at hv
  have hv' : read_varint fuel s [] 0 =
      some (.done (0, [] ++ [] ++ [0, 0], { s with inbox := rest, reads := s.reads.tail })) := by
    simpa [List.drop_one] using hv
  simp only [libp2p_net_multistream_receive, hv']
  simp

theorem receive_empty_frame_witness :
    libp2p_net_multistream_receive 1
        { inbox := 0 :: [7, 7], reads := [.deliver 1], outbox := [], writes := [] } =
      some (.done { ret := 0, results := none, results_size := none,
                    sock := { inbox := [7, 7], reads := List.tail [ReadEvent.deliver 1],
                              outbox := [], writes := [] } }) :=
  receive_empty_frame 1
    { inbox := 0 :: [7, 7], reads := [.deliver 1], outbox := [], writes := [] } [7, 7] rfl
    (by simp) (le_refl 1)


end Multistream
